import Mathlib

/-!
go-route53: paginated listing of hosted zones and record sets

A shallow embedding of `main.go`.  The remote service is an explicit
collaborator: a deterministic state machine `Client σ` whose three operations
take the service state and a request and give a response and the next state.
Every Go function that talks to the service or prints is a function on a
`World σ`, which holds the service state together with three observation
traces: the remote calls made (request and response), the chunks written to
standard output, and the messages handed to the logger.

The two `for { ... }` loops of the paginators have no bound in the source, so
their embeddings take a `fuel` argument bounding the number of iterations; the
outcome `Outcome.running` says that the loop was still iterating when the fuel
ran out.

Go pointers (`*string`, `*int64`, `*types.AliasTarget`, ...) are `Option`
values and dereferencing `nil` is the outcome `Outcome.panicked`.  The `int64`
TTL is an `Int`: the program only copies and prints it, no arithmetic is done
on it.  The `context.TODO()` argument of the SDK calls is dropped.
-/

namespace Route53

/-! ## Data model (the SDK types, restricted to the fields `main.go` uses) -/

/-- A Go `error` value, identified with the text of its `Error()` method. -/
structure Error where
  msg : String
  deriving DecidableEq, Repr

/-- The SDK type `types.RRType` is a string type; its zero value is `""`. -/
abbrev RRType := String

/-- The constant `types.RRTypeA`. -/
def RRTypeA : RRType := "A"

/-- The SDK type `types.HostedZone`: `Id` and `Name` are of Go type `*string`. -/
structure HostedZone where
  Id : Option String
  Name : Option String
  deriving DecidableEq, Repr

/-- The SDK type `types.ResourceRecord`. -/
structure ResourceRecord where
  Value : Option String
  deriving DecidableEq, Repr

/-- The SDK type `types.AliasTarget`. -/
structure AliasTarget where
  DNSName : Option String
  deriving DecidableEq, Repr

/-- The SDK type `types.ResourceRecordSet`; its field `Type` is `Type_` here, `Type`
being a keyword. -/
structure ResourceRecordSet where
  Name : Option String
  Type_ : RRType
  TTL : Option Int
  ResourceRecords : List ResourceRecord
  AliasTarget : Option AliasTarget
  deriving DecidableEq, Repr

/-- Request of `ListHostedZones`. -/
structure ListHostedZonesInput where
  Marker : Option String
  deriving DecidableEq, Repr

/-- Response of `ListHostedZones`. -/
structure ListHostedZonesOutput where
  HostedZones : List HostedZone
  IsTruncated : Bool
  NextMarker : Option String
  deriving DecidableEq, Repr

/-- Request of `ListResourceRecordSets`. -/
structure ListResourceRecordSetsInput where
  HostedZoneId : Option String
  StartRecordName : Option String
  StartRecordType : RRType
  deriving DecidableEq, Repr

/-- Response of `ListResourceRecordSets`. -/
structure ListResourceRecordSetsOutput where
  ResourceRecordSets : List ResourceRecordSet
  IsTruncated : Bool
  NextRecordName : Option String
  NextRecordType : RRType
  deriving DecidableEq, Repr

/-- The SDK type `types.ChangeAction`. -/
inductive ChangeAction where
  | Create
  | Delete
  | Upsert
  deriving DecidableEq, Repr

/-- The SDK type `types.Change`. -/
structure Change where
  Action : ChangeAction
  ResourceRecordSet : Option ResourceRecordSet
  deriving DecidableEq, Repr

/-- The SDK type `types.ChangeBatch`. -/
structure ChangeBatch where
  Changes : List Change
  deriving DecidableEq, Repr

/-- Request of `ChangeResourceRecordSets`. -/
structure ChangeResourceRecordSetsInput where
  HostedZoneId : Option String
  ChangeBatch : Option ChangeBatch
  deriving DecidableEq, Repr

/-! ## The remote service and the world -/

/-- The Route 53 client as a deterministic state machine over a service state
`σ`.  A Go result `(*Output, error)` is an `Except Error Output`; the result of
`ChangeResourceRecordSets`, whose output the program discards, is the optional
error alone. -/
structure Client (σ : Type) where
  ListHostedZones : σ → ListHostedZonesInput → Except Error ListHostedZonesOutput × σ
  ListResourceRecordSets :
    σ → ListResourceRecordSetsInput → Except Error ListResourceRecordSetsOutput × σ
  ChangeResourceRecordSets : σ → ChangeResourceRecordSetsInput → Option Error × σ

/-- One remote call: the request sent and the response received. -/
inductive Call where
  | ListHostedZones (input : ListHostedZonesInput)
      (result : Except Error ListHostedZonesOutput)
  | ListResourceRecordSets (input : ListResourceRecordSetsInput)
      (result : Except Error ListResourceRecordSetsOutput)
  | ChangeResourceRecordSets (input : ChangeResourceRecordSetsInput)
      (result : Option Error)

/-- The state a run threads: the service state and the three traces, each
oldest entry first. -/
structure World (σ : Type) where
  svc : σ
  calls : List Call
  stdout : List String
  logged : List String

/-- How a Go function ended. -/
inductive Outcome (α : Type) where
  | returned (a : α)
  | running
  | panicked
  | exited (code : Nat)

variable {σ : Type}

/-- The call `client.ListHostedZones(ctx, input)`, recorded in the trace. -/
def callListHostedZones (client : Client σ) (input : ListHostedZonesInput) (w : World σ) :
    Except Error ListHostedZonesOutput × World σ :=
  let r := client.ListHostedZones w.svc input
  (r.1, { w with svc := r.2, calls := w.calls ++ [Call.ListHostedZones input r.1] })

/-- The call `client.ListResourceRecordSets(ctx, input)`, recorded in the trace. -/
def callListResourceRecordSets (client : Client σ) (input : ListResourceRecordSetsInput)
    (w : World σ) : Except Error ListResourceRecordSetsOutput × World σ :=
  let r := client.ListResourceRecordSets w.svc input
  (r.1, { w with svc := r.2, calls := w.calls ++ [Call.ListResourceRecordSets input r.1] })

/-- The call `client.ChangeResourceRecordSets(ctx, input)`, recorded in the trace. -/
def callChangeResourceRecordSets (client : Client σ) (input : ChangeResourceRecordSetsInput)
    (w : World σ) : Option Error × World σ :=
  let r := client.ChangeResourceRecordSets w.svc input
  (r.1, { w with svc := r.2, calls := w.calls ++ [Call.ChangeResourceRecordSets input r.1] })

/-- One `fmt.Printf` or `fmt.Println`: the formatted text, written to stdout. -/
def printf (text : String) (w : World σ) : World σ :=
  { w with stdout := w.stdout ++ [text] }

/-- One `log.Printf` or `log.Fatalf` message (the logger's timestamp is left out). -/
def logPrintf (text : String) (w : World σ) : World σ :=
  { w with logged := w.logged ++ [text] }

/-- The verb `%d` on an integer. -/
def fmtInt (n : Int) : String := toString n

/-! ## The functions of `main.go` -/

/-- The loop of `listHostedZones`: `zones` and `marker` are its two local
variables, `fuel` bounds the iterations left. -/
def listHostedZonesLoop (client : Client σ) :
    Nat → List HostedZone → Option String → World σ →
      Outcome (List HostedZone × Option Error) × World σ
  | 0, _, _, w => (Outcome.running, w)
  | fuel + 1, zones, marker, w =>
    let input : ListHostedZonesInput := { Marker := marker }
    match callListHostedZones client input w with
    | (Except.error err, w) => (Outcome.returned ([], some err), w)
    | (Except.ok result, w) =>
      let zones := zones ++ result.HostedZones
      if !result.IsTruncated then
        (Outcome.returned (zones, none), w)
      else
        listHostedZonesLoop client fuel zones result.NextMarker w

/-- `listHostedZones`: both locals start at their zero value. -/
def listHostedZones (client : Client σ) (fuel : Nat) (w : World σ) :
    Outcome (List HostedZone × Option Error) × World σ :=
  listHostedZonesLoop client fuel [] none w

/-- The loop of `listResourceRecordSets`. -/
def listResourceRecordSetsLoop (client : Client σ) (zoneID : String) :
    Nat → List ResourceRecordSet → Option String → RRType → World σ →
      Outcome (List ResourceRecordSet × Option Error) × World σ
  | 0, _, _, _, w => (Outcome.running, w)
  | fuel + 1, records, startRecordName, startRecordType, w =>
    let input : ListResourceRecordSetsInput :=
      { HostedZoneId := some zoneID
        StartRecordName := startRecordName
        StartRecordType := startRecordType }
    match callListResourceRecordSets client input w with
    | (Except.error err, w) => (Outcome.returned ([], some err), w)
    | (Except.ok result, w) =>
      let records := records ++ result.ResourceRecordSets
      if !result.IsTruncated then
        (Outcome.returned (records, none), w)
      else
        listResourceRecordSetsLoop client zoneID fuel records
          result.NextRecordName result.NextRecordType w

/-- `listResourceRecordSets`. -/
def listResourceRecordSets (client : Client σ) (zoneID : String) (fuel : Nat) (w : World σ) :
    Outcome (List ResourceRecordSet × Option Error) × World σ :=
  listResourceRecordSetsLoop client zoneID fuel [] none "" w

/-- `getRecordTTL`. -/
def getRecordTTL (record : ResourceRecordSet) : Int :=
  match record.TTL with
  | some ttl => ttl
  | none => 0

/-- The loop `for _, rr := range record.ResourceRecords` of `displayRecord`. -/
def displayValues : List ResourceRecord → World σ → Outcome Unit × World σ
  | [], w => (Outcome.returned (), w)
  | rr :: rest, w =>
    match rr.Value with
    | none => (Outcome.panicked, w)
    | some value => displayValues rest (printf ("    Value: " ++ value ++ "\n") w)

/-- `displayRecord`. -/
def displayRecord (record : ResourceRecordSet) (w : World σ) : Outcome Unit × World σ :=
  match record.Name with
  | none => (Outcome.panicked, w)
  | some name =>
    let w := printf ("  Name: " ++ name ++ "\n") w
    let w := printf ("  Type: " ++ record.Type_ ++ "\n") w
    let w := printf ("  TTL: " ++ fmtInt (getRecordTTL record) ++ "\n") w
    match displayValues record.ResourceRecords w with
    | (Outcome.returned (), w) =>
      match record.AliasTarget with
      | none => (Outcome.returned (), printf "\n" w)
      | some target =>
        match target.DNSName with
        | none => (Outcome.panicked, w)
        | some dnsName =>
          let w := printf ("    Alias Target: " ++ dnsName ++ "\n") w
          (Outcome.returned (), printf "\n" w)
    | (Outcome.running, w) => (Outcome.running, w)
    | (Outcome.panicked, w) => (Outcome.panicked, w)
    | (Outcome.exited code, w) => (Outcome.exited code, w)

/-- The loop `for _, record := range records` of `displayZoneRecords`. -/
def displayRecords : List ResourceRecordSet → World σ → Outcome Unit × World σ
  | [], w => (Outcome.returned (), w)
  | record :: rest, w =>
    match displayRecord record w with
    | (Outcome.returned (), w) => displayRecords rest w
    | (Outcome.running, w) => (Outcome.running, w)
    | (Outcome.panicked, w) => (Outcome.panicked, w)
    | (Outcome.exited code, w) => (Outcome.exited code, w)

/-- `displayZoneRecords`.  Both arguments of the first `Printf` are evaluated
before it prints. -/
def displayZoneRecords (client : Client σ) (fuel : Nat) (zone : HostedZone) (w : World σ) :
    Outcome Unit × World σ :=
  match zone.Name, zone.Id with
  | some name, some id =>
    let w := printf ("Hosted Zone: " ++ name ++ " (ID: " ++ id ++ ")\n") w
    let w := printf "----------------------------------------\n" w
    match listResourceRecordSets client id fuel w with
    | (Outcome.returned (_, some err), w) =>
      (Outcome.returned (),
        logPrintf ("failed to list records for zone " ++ id ++ ": " ++ err.msg) w)
    | (Outcome.returned (records, none), w) =>
      match displayRecords records w with
      | (Outcome.returned (), w) => (Outcome.returned (), printf "\n" w)
      | (Outcome.running, w) => (Outcome.running, w)
      | (Outcome.panicked, w) => (Outcome.panicked, w)
      | (Outcome.exited code, w) => (Outcome.exited code, w)
    | (Outcome.running, w) => (Outcome.running, w)
    | (Outcome.panicked, w) => (Outcome.panicked, w)
    | (Outcome.exited code, w) => (Outcome.exited code, w)
  | _, _ => (Outcome.panicked, w)

/-- The loop `for _, zone := range zones` of `getAllZonesAndRecords`. -/
def displayZones (client : Client σ) (fuel : Nat) :
    List HostedZone → World σ → Outcome Unit × World σ
  | [], w => (Outcome.returned (), w)
  | zone :: rest, w =>
    match displayZoneRecords client fuel zone w with
    | (Outcome.returned (), w) => displayZones client fuel rest w
    | (Outcome.running, w) => (Outcome.running, w)
    | (Outcome.panicked, w) => (Outcome.panicked, w)
    | (Outcome.exited code, w) => (Outcome.exited code, w)

/-- `getAllZonesAndRecords`; `log.Fatalf` logs and exits with status 1. -/
def getAllZonesAndRecords (client : Client σ) (fuel : Nat) (w : World σ) :
    Outcome Unit × World σ :=
  match listHostedZones client fuel w with
  | (Outcome.returned (_, some err), w) =>
    (Outcome.exited 1, logPrintf ("failed to list hosted zones, " ++ err.msg) w)
  | (Outcome.returned (zones, none), w) =>
    let w := printf ("Found " ++ toString zones.length ++ " hosted zones\n\n") w
    displayZones client fuel zones w
  | (Outcome.running, w) => (Outcome.running, w)
  | (Outcome.panicked, w) => (Outcome.panicked, w)
  | (Outcome.exited code, w) => (Outcome.exited code, w)

/-- `createSubdomain`. -/
def createSubdomain (client : Client σ) (hostedZoneID subdomain ipAddress : String) (ttl : Int)
    (w : World σ) : Option Error × World σ :=
  let changeBatch : ChangeBatch :=
    { Changes :=
        [{ Action := ChangeAction.Create
           ResourceRecordSet := some
             { Name := some subdomain
               Type_ := RRTypeA
               TTL := some ttl
               ResourceRecords := [{ Value := some ipAddress }]
               AliasTarget := none } }] }
  let input : ChangeResourceRecordSetsInput :=
    { HostedZoneId := some hostedZoneID, ChangeBatch := some changeBatch }
  callChangeResourceRecordSets client input w

/-- `deleteSubdomain`. -/
def deleteSubdomain (client : Client σ) (hostedZoneID subdomain ipAddress : String) (ttl : Int)
    (w : World σ) : Option Error × World σ :=
  let changeBatch : ChangeBatch :=
    { Changes :=
        [{ Action := ChangeAction.Delete
           ResourceRecordSet := some
             { Name := some subdomain
               Type_ := RRTypeA
               TTL := some ttl
               ResourceRecords := [{ Value := some ipAddress }]
               AliasTarget := none } }] }
  let input : ChangeResourceRecordSetsInput :=
    { HostedZoneId := some hostedZoneID, ChangeBatch := some changeBatch }
  callChangeResourceRecordSets client input w

/-! ## Proof device: the shape the two loops share -/

/-- The loop that `listHostedZonesLoop` and `listResourceRecordSetsLoop` both
instantiate (see `listHostedZonesLoop_eq` and `listResourceRecordSetsLoop_eq`):
`fetch` sends the request built from the cursor, `items`, `truncated` and
`next` read the page.  It is used only to prove facts about the two loops
once. -/
def paginate {π κ α : Type} (fetch : κ → World σ → Except Error π × World σ)
    (items : π → List α) (truncated : π → Bool) (next : π → κ) :
    Nat → List α → κ → World σ → Outcome (List α × Option Error) × World σ
  | 0, _, _, w => (Outcome.running, w)
  | fuel + 1, acc, cursor, w =>
    match fetch cursor w with
    | (Except.error err, w) => (Outcome.returned ([], some err), w)
    | (Except.ok page, w) =>
      if !truncated page then
        (Outcome.returned (acc ++ items page, none), w)
      else
        paginate fetch items truncated next fuel (acc ++ items page) (next page) w

/-- The request `listHostedZones` builds from its cursor. -/
def hostedZonesRequest (marker : Option String) : ListHostedZonesInput :=
  { Marker := marker }

/-- The request `listResourceRecordSets` builds from its compound cursor. -/
def recordSetsRequest (zoneID : String) (cursor : Option String × RRType) :
    ListResourceRecordSetsInput :=
  { HostedZoneId := some zoneID, StartRecordName := cursor.1, StartRecordType := cursor.2 }

/-- The compound cursor a record-set page carries. -/
def nextRecord (page : ListResourceRecordSetsOutput) : Option String × RRType :=
  (page.NextRecordName, page.NextRecordType)

/-! ## Model services -/

/-- A scripted service: what it answers to its `n`-th request (counting every
operation, from 0) is fixed in advance and does not depend on the request. -/
structure Script where
  hostedZones : Nat → Except Error ListHostedZonesOutput
  recordSets : Nat → Except Error ListResourceRecordSetsOutput
  changes : Nat → Option Error

/-- The client of a scripted service; its state is the number of requests
answered so far. -/
def scripted (s : Script) : Client Nat where
  ListHostedZones n _ := (s.hostedZones n, n + 1)
  ListResourceRecordSets n _ := (s.recordSets n, n + 1)
  ChangeResourceRecordSets n _ := (s.changes n, n + 1)

/-- Whether a response ends the pagination: an error, or a page that is not
truncated. -/
def stops {π : Type} (truncated : π → Bool) : Except Error π → Bool
  | Except.error _ => true
  | Except.ok page => !truncated page

/-- The world after a scripted service answered one more request, `call` being
the trace entry of that call. -/
def answered (call : Call) (w : World Nat) : World Nat :=
  { w with svc := w.svc + 1, calls := w.calls ++ [call] }

/-- The function `fetch` talks to a service that replays `script`, and `mk` is
the trace entry of one of its calls. -/
def Replays {π κ : Type} (fetch : κ → World Nat → Except Error π × World Nat)
    (script : Nat → Except Error π) (mk : κ → Except Error π → Call) : Prop :=
  ∀ cursor w, fetch cursor w = (script w.svc, answered (mk cursor (script w.svc)) w)

/-- The cursor in hand after the pages `pages`, starting from `cursor`. -/
def cursorAfter {π κ : Type} (next : π → κ) (cursor : κ) (pages : List π) : κ :=
  pages.foldl (fun _ page => next page) cursor

/-- The function `fetch` appends to the trace the one call it makes, `mk` being
the trace entry of a call. -/
def Records {π κ : Type} (fetch : κ → World σ → Except Error π × World σ)
    (mk : κ → Except Error π → Call) : Prop :=
  ∀ cursor w, (fetch cursor w).2.calls = w.calls ++ [mk cursor (fetch cursor w).1]

/-- The calls of one run of `paginate` with `fuel` iterations in hand, started
with the cursor `cursor`: a call for `cursor`, and after a truncated page the
calls of a run started with that page's cursor. -/
def Threaded {π κ : Type} (mk : κ → Except Error π → Call) (truncated : π → Bool)
    (next : π → κ) : Nat → κ → List Call → Prop
  | 0, _, calls => calls = []
  | fuel + 1, cursor, calls =>
    ∃ result rest, calls = mk cursor result :: rest ∧
      match result with
      | Except.error _ => rest = []
      | Except.ok page =>
        if truncated page = true then Threaded mk truncated next fuel (next page) rest
        else rest = []

/-- A service that honours the cursor contract over a fixed catalog: a request
without a cursor gets the first `pageSize` items, a request with a cursor gets
the `pageSize` items from the position the cursor stands for, a page is
truncated exactly when items remain after it, and then its cursor stands for
the position reached.  `markerOf` and `recordCursorOf` write a position as a
simple and as a compound (name, type) cursor, `positionOf` and
`recordPositionOf` read them back. -/
structure Catalog where
  zones : List HostedZone
  records : String → List ResourceRecordSet
  pageSize : Nat
  markerOf : Nat → String
  positionOf : String → Option Nat
  recordCursorOf : Nat → String × RRType
  recordPositionOf : String × RRType → Option Nat

/-- The position a simple cursor stands for. -/
def Catalog.zonePosition (c : Catalog) (marker : Option String) : Option Nat :=
  match marker with
  | none => some 0
  | some m => c.positionOf m

/-- The position a compound cursor stands for. -/
def Catalog.recordPosition (c : Catalog) (cursor : Option String × RRType) : Option Nat :=
  match cursor.1 with
  | none => some 0
  | some name => c.recordPositionOf (name, cursor.2)

/-- The client of a catalog service; the service has no state. -/
def catalogClient (c : Catalog) : Client Unit where
  ListHostedZones _ input :=
    match c.zonePosition input.Marker with
    | none => (Except.error { msg := "InvalidInput" }, ())
    | some pos =>
      (Except.ok
        { HostedZones := (c.zones.drop pos).take c.pageSize
          IsTruncated := decide (pos + c.pageSize < c.zones.length)
          NextMarker :=
            if pos + c.pageSize < c.zones.length then some (c.markerOf (pos + c.pageSize))
            else none }, ())
  ListResourceRecordSets _ input :=
    match c.recordPosition (input.StartRecordName, input.StartRecordType) with
    | none => (Except.error { msg := "InvalidInput" }, ())
    | some pos =>
      let all := c.records (input.HostedZoneId.getD "")
      (Except.ok
        { ResourceRecordSets := (all.drop pos).take c.pageSize
          IsTruncated := decide (pos + c.pageSize < all.length)
          NextRecordName :=
            if pos + c.pageSize < all.length then some (c.recordCursorOf (pos + c.pageSize)).1
            else none
          NextRecordType :=
            if pos + c.pageSize < all.length then (c.recordCursorOf (pos + c.pageSize)).2
            else "" }, ())
  ChangeResourceRecordSets _ _ := (none, ())

/-- The function `fetch` pages through the list `all`, `size` items a page:
at a cursor that stands for the position `pos` it gets the items from `pos`,
truncated exactly when items remain, with a cursor for the position reached. -/
def PagesThrough {π κ α : Type} (fetch : κ → World σ → Except Error π × World σ)
    (items : π → List α) (truncated : π → Bool) (next : π → κ)
    (position : κ → Option Nat) (all : List α) (size : Nat) : Prop :=
  ∀ cursor w pos, position cursor = some pos →
    ∃ page w1, fetch cursor w = (Except.ok page, w1) ∧
      items page = (all.drop pos).take size ∧
      truncated page = decide (pos + size < all.length) ∧
      (pos + size < all.length → position (next page) = some (pos + size))

/-- A service for `getAllZonesAndRecords`: listing the zones gives `zones` in
one page or fails, and listing the records of the zone with the id `id` gives
`records id` in one page or fails. -/
structure ZoneService where
  zones : Except Error (List HostedZone)
  records : String → Except Error (List ResourceRecordSet)

/-- The client of a zone service; the service has no state. -/
def zoneClient (zs : ZoneService) : Client Unit where
  ListHostedZones _ _ :=
    match zs.zones with
    | Except.error e => (Except.error e, ())
    | Except.ok zones =>
      (Except.ok { HostedZones := zones, IsTruncated := false, NextMarker := none }, ())
  ListResourceRecordSets _ input :=
    match zs.records (input.HostedZoneId.getD "") with
    | Except.error e => (Except.error e, ())
    | Except.ok records =>
      (Except.ok
        { ResourceRecordSets := records, IsTruncated := false,
          NextRecordName := none, NextRecordType := "" }, ())
  ChangeResourceRecordSets _ _ := (none, ())

/-- The pointers `displayZoneRecords` dereferences in a zone are set. -/
def HostedZone.complete (zone : HostedZone) : Bool :=
  zone.Name.isSome && zone.Id.isSome

/-- The pointers `displayRecord` dereferences in a record are set. -/
def ResourceRecordSet.complete (record : ResourceRecordSet) : Bool :=
  record.Name.isSome && record.ResourceRecords.all (fun rr => rr.Value.isSome) &&
    match record.AliasTarget with
    | none => true
    | some target => target.DNSName.isSome

/-- The chunks `displayRecord` writes for a complete record: name, type, TTL
(0 when absent), one chunk a value, the alias target when there is one, and an
empty line. -/
def recordLines (record : ResourceRecordSet) : List String :=
  ["  Name: " ++ record.Name.getD "" ++ "\n",
    "  Type: " ++ record.Type_ ++ "\n",
    "  TTL: " ++ fmtInt (record.TTL.getD 0) ++ "\n"] ++
  record.ResourceRecords.map (fun rr => "    Value: " ++ rr.Value.getD "" ++ "\n") ++
  (match record.AliasTarget with
    | none => []
    | some target => ["    Alias Target: " ++ target.DNSName.getD "" ++ "\n"]) ++
  ["\n"]

/-- The chunks written for a complete zone, `outcome` being what the listing of
its records gave: its header, and when the records could be listed the records
and an empty line. -/
def zoneLines (zone : HostedZone) (outcome : Except Error (List ResourceRecordSet)) :
    List String :=
  ["Hosted Zone: " ++ zone.Name.getD "" ++ " (ID: " ++ zone.Id.getD "" ++ ")\n",
    "----------------------------------------\n"] ++
  match outcome with
  | Except.error _ => []
  | Except.ok rs => rs.flatMap recordLines ++ ["\n"]

/-- The message logged for a zone: one when its records could not be listed. -/
def zoneLogs (zone : HostedZone) (outcome : Except Error (List ResourceRecordSet)) :
    List String :=
  match outcome with
  | Except.error e =>
    ["failed to list records for zone " ++ zone.Id.getD "" ++ ": " ++ e.msg]
  | Except.ok _ => []

/-- How a service answers the listing of one zone's records: with the pages
`pages`, to be truncated, and then with `last`, an error or the last page. -/
structure Listing where
  pages : List ListResourceRecordSetsOutput
  last : Except Error ListResourceRecordSetsOutput

/-- The responses of a listing, in order. -/
def Listing.responses (l : Listing) : List (Except Error ListResourceRecordSetsOutput) :=
  l.pages.map Except.ok ++ [l.last]

/-- The pages before the last response are truncated, and the last response,
when it is a page, is not. -/
def Listing.wellFormed (l : Listing) : Prop :=
  (∀ p ∈ l.pages, p.IsTruncated = true) ∧ ∀ p, l.last = Except.ok p → p.IsTruncated = false

/-- What a listing comes to: the error of its last response, or the records of
all its pages. -/
def Listing.records (l : Listing) : Except Error (List ResourceRecordSet) :=
  match l.last with
  | Except.error e => Except.error e
  | Except.ok p =>
    Except.ok ((l.pages ++ [p]).flatMap ListResourceRecordSetsOutput.ResourceRecordSets)

/-- From its `n`-th request on, the script answers with the responses of the
listings, one listing after the other. -/
def servesListings (script : Nat → Except Error ListResourceRecordSetsOutput) :
    Nat → List Listing → Prop
  | _, [] => True
  | n, l :: ls =>
    (List.range' n (l.pages.length + 1)).map script = l.responses ∧
      servesListings script (n + (l.pages.length + 1)) ls

/-- The world `w` with more calls, output and log messages. -/
def World.extend (w : World σ) (calls : List Call) (out log : List String) : World σ :=
  { w with calls := w.calls ++ calls, stdout := w.stdout ++ out, logged := w.logged ++ log }

/-- The page a call received, when it is a `ListHostedZones` call that
succeeded. -/
def hostedZonesPage : Call → Option ListHostedZonesOutput
  | Call.ListHostedZones _ (Except.ok page) => some page
  | _ => none

/-- The page a call received, when it is a `ListResourceRecordSets` call that
succeeded. -/
def recordSetsPage : Call → Option ListResourceRecordSetsOutput
  | Call.ListResourceRecordSets _ (Except.ok page) => some page
  | _ => none

/-- What a call is for: the zones, the records of a zone (the `HostedZoneId` of
the request), or a change. -/
inductive Target where
  | zones
  | records (zone : Option String)
  | changes
  deriving DecidableEq, Repr

/-- The target of a call. -/
def callTarget : Call → Target
  | Call.ListHostedZones _ _ => Target.zones
  | Call.ListResourceRecordSets input _ => Target.records input.HostedZoneId
  | Call.ChangeResourceRecordSets _ _ => Target.changes

/-- What a run returns that started with the items `acc`, received the
truncated pages `init` and then the response `r`: the error alone, or the items
of all the pages. -/
def scriptResult {π α : Type} (items : π → List α) (acc : List α) (init : List π) :
    Except Error π → List α × Option Error
  | Except.error e => ([], some e)
  | Except.ok p => (acc ++ (init ++ [p]).flatMap items, none)

/-- The world `w` after the calls `calls` to a scripted service, which answers
one request a call, and with more output and log messages. -/
def World.after (w : World Nat) (calls : List Call) (out log : List String) : World Nat :=
  { svc := w.svc + calls.length
    calls := w.calls ++ calls
    stdout := w.stdout ++ out
    logged := w.logged ++ log }

/-! ## Example data -/

/-- An empty world in front of a scripted service that has answered nothing. -/
def freshWorld : World Nat := { svc := 0, calls := [], stdout := [], logged := [] }

def zoneA : HostedZone := { Id := some "/hostedzone/ZA", Name := some "a.example.com." }

def zoneB : HostedZone := { Id := some "/hostedzone/ZB", Name := some "b.example.com." }

def zoneC : HostedZone := { Id := some "/hostedzone/ZC", Name := some "c.example.com." }

def recordA : ResourceRecordSet :=
  { Name := some "a.example.com.", Type_ := "A", TTL := some 300,
    ResourceRecords := [{ Value := some "192.0.2.1" }], AliasTarget := none }

def recordB : ResourceRecordSet :=
  { Name := some "b.example.com.", Type_ := "TXT", TTL := some 0,
    ResourceRecords := [{ Value := some "one" }, { Value := some "two" }], AliasTarget := none }

def recordC : ResourceRecordSet :=
  { Name := some "c.example.com.", Type_ := "A", TTL := none,
    ResourceRecords := [], AliasTarget := some { DNSName := some "lb.example.net." } }

def zonePage1 : ListHostedZonesOutput :=
  { HostedZones := [zoneA, zoneB], IsTruncated := true, NextMarker := some "c1" }

def zonePage2 : ListHostedZonesOutput :=
  { HostedZones := [zoneC], IsTruncated := false, NextMarker := none }

def recordPage1 : ListResourceRecordSetsOutput :=
  { ResourceRecordSets := [recordA, recordB], IsTruncated := true,
    NextRecordName := some "c.example.com.", NextRecordType := "A" }

def recordPage2 : ListResourceRecordSetsOutput :=
  { ResourceRecordSets := [recordC], IsTruncated := false,
    NextRecordName := none, NextRecordType := "" }

/-- The service of the specification's first test: a truncated page of two
items with a cursor, then a last page of one item. -/
def twoPages : Script where
  hostedZones n :=
    match n with
    | 0 => Except.ok zonePage1
    | 1 => Except.ok zonePage2
    | _ => Except.error { msg := "unexpected call" }
  recordSets n :=
    match n with
    | 0 => Except.ok recordPage1
    | 1 => Except.ok recordPage2
    | _ => Except.error { msg := "unexpected call" }
  changes _ := none

/-- A service whose first answer is a truncated page and whose second answer is
an error. -/
def failsSecond : Script where
  hostedZones n :=
    match n with
    | 0 => Except.ok zonePage1
    | _ => Except.error { msg := "Throttling" }
  recordSets n :=
    match n with
    | 0 => Except.ok recordPage1
    | _ => Except.error { msg := "Throttling" }
  changes _ := none

/-- A service that answers every request with the same truncated page. -/
def neverDone : Script where
  hostedZones _ := Except.ok zonePage1
  recordSets _ := Except.ok recordPage1
  changes _ := none

/-- A last page that still carries a cursor. -/
def zonePageWithMarker : ListHostedZonesOutput :=
  { HostedZones := [zoneA, zoneB], IsTruncated := false, NextMarker := some "c1" }

/-- A service whose first page is the last one and carries a cursor all the
same; it would go on answering with pages. -/
def onePage : Script where
  hostedZones n :=
    match n with
    | 0 => Except.ok zonePageWithMarker
    | _ => Except.ok zonePage2
  recordSets n :=
    match n with
    | 0 => Except.ok { recordPage1 with IsTruncated := false }
    | _ => Except.ok recordPage2
  changes _ := none

/-- A truncated page of zones without a cursor. -/
def zonePageNoMarker : ListHostedZonesOutput :=
  { HostedZones := [zoneA], IsTruncated := true, NextMarker := none }

/-- A truncated page of records without a record name to resume from. -/
def recordPageNoName : ListResourceRecordSetsOutput :=
  { ResourceRecordSets := [recordA], IsTruncated := true,
    NextRecordName := none, NextRecordType := "TXT" }

/-- A service whose first page is truncated and carries no cursor, and whose
second page is the last. -/
def malformedOnce : Script where
  hostedZones n :=
    match n with
    | 0 => Except.ok zonePageNoMarker
    | _ => Except.ok zonePage2
  recordSets n :=
    match n with
    | 0 => Except.ok recordPageNoName
    | _ => Except.ok recordPage2
  changes _ := none

/-- A service whose every page is truncated and carries no cursor. -/
def malformedAlways : Script where
  hostedZones _ := Except.ok zonePageNoMarker
  recordSets _ := Except.ok recordPageNoName
  changes _ := none

/-- An empty world in front of a service without state. -/
def emptyWorld : World Unit := { svc := (), calls := [], stdout := [], logged := [] }

/-- The number `k` in unary. -/
def unary (k : Nat) : String := String.mk (List.replicate k 'x')

/-- A catalog of three zones and, in every zone, three records, served two a
page.  A position is written in unary as a marker; as a compound cursor its
half is written in unary as the name and its parity as the type, so that both
components are needed to read it back. -/
def smallCatalog : Catalog where
  zones := [zoneA, zoneB, zoneC]
  records _ := [recordA, recordB, recordC]
  pageSize := 2
  markerOf k := unary k
  positionOf m := some m.length
  recordCursorOf k := (unary (k / 2), if k % 2 = 0 then "A" else "AAAA")
  recordPositionOf cursor := some (2 * cursor.1.length + if cursor.2 = "A" then 0 else 1)

/-- A zone whose `Id` is nil. -/
def zoneWithoutId : HostedZone := { Id := none, Name := some "x.example.com." }

/-- A record whose `Name` is nil. -/
def recordWithoutName : ResourceRecordSet :=
  { Name := none, Type_ := "A", TTL := some 300,
    ResourceRecords := [{ Value := some "192.0.2.1" }], AliasTarget := none }

/-- A first, truncated page of the records of a zone. -/
def recordPageFirst : ListResourceRecordSetsOutput :=
  { ResourceRecordSets := [recordA], IsTruncated := true,
    NextRecordName := some "b.example.com.", NextRecordType := "TXT" }

/-- A last page of the records of a zone. -/
def recordPageLast : ListResourceRecordSetsOutput :=
  { ResourceRecordSets := [recordB], IsTruncated := false,
    NextRecordName := none, NextRecordType := "" }

/-- A service that lists three zones in two pages; the records of the first
come in two pages, the listing of the second fails on its second page, after a
truncated first page, and the records of the third come in one page. -/
def mixedListings : Script where
  hostedZones n :=
    match n with
    | 0 => Except.ok zonePage1
    | 1 => Except.ok zonePage2
    | _ => Except.error { msg := "unexpected call" }
  recordSets n :=
    match n with
    | 2 => Except.ok recordPageFirst
    | 3 => Except.ok recordPageLast
    | 4 => Except.ok recordPageFirst
    | 5 => Except.error { msg := "AccessDenied" }
    | 6 => Except.ok recordPage2
    | _ => Except.error { msg := "unexpected call" }
  changes _ := none

/-- The three zones of `mixedListings`, each with the listing of its records. -/
def mixedEntries : List (HostedZone × Listing) :=
  [(zoneA, { pages := [recordPageFirst], last := Except.ok recordPageLast }),
    (zoneB, { pages := [recordPageFirst], last := Except.error { msg := "AccessDenied" } }),
    (zoneC, { pages := [], last := Except.ok recordPage2 })]

/-- A record with a negative TTL. -/
def recordNegativeTTL : ResourceRecordSet :=
  { Name := some "n.example.com.", Type_ := "A", TTL := some (-5),
    ResourceRecords := [], AliasTarget := none }

/-- A service that refuses every change. -/
def refusesChanges : Script where
  hostedZones _ := Except.error { msg := "unexpected call" }
  recordSets _ := Except.error { msg := "unexpected call" }
  changes _ := some { msg := "InvalidChangeBatch" }

/-! ## The two loops are instances of `paginate` -/

theorem listHostedZonesLoop_eq (client : Client σ) (fuel : Nat) (zones : List HostedZone)
    (marker : Option String) (w : World σ) :
    listHostedZonesLoop client fuel zones marker w =
      paginate (fun m => callListHostedZones client (hostedZonesRequest m))
        ListHostedZonesOutput.HostedZones ListHostedZonesOutput.IsTruncated
        ListHostedZonesOutput.NextMarker fuel zones marker w := by
  induction fuel generalizing zones marker w with
  | zero => rfl
  | succ n ih =>
    unfold listHostedZonesLoop paginate
    simp only [hostedZonesRequest]
    rcases h : callListHostedZones client { Marker := marker } w with ⟨r, w1⟩
    cases r with
    | error e => rfl
    | ok page =>
      simp only [ih]
      rfl

theorem listResourceRecordSetsLoop_eq (client : Client σ) (zoneID : String) (fuel : Nat)
    (records : List ResourceRecordSet) (name : Option String) (type : RRType) (w : World σ) :
    listResourceRecordSetsLoop client zoneID fuel records name type w =
      paginate (fun k => callListResourceRecordSets client (recordSetsRequest zoneID k))
        ListResourceRecordSetsOutput.ResourceRecordSets ListResourceRecordSetsOutput.IsTruncated
        nextRecord fuel records (name, type) w := by
  induction fuel generalizing records name type w with
  | zero => rfl
  | succ n ih =>
    unfold listResourceRecordSetsLoop paginate
    simp only [recordSetsRequest]
    rcases h : callListResourceRecordSets client
      { HostedZoneId := some zoneID, StartRecordName := name, StartRecordType := type } w
      with ⟨r, w1⟩
    cases r with
    | error e => rfl
    | ok page =>
      simp only [ih]
      rfl

theorem replays_hostedZones (s : Script) :
    Replays (fun m => callListHostedZones (scripted s) (hostedZonesRequest m)) s.hostedZones
      (fun m r => Call.ListHostedZones (hostedZonesRequest m) r) := by
  intro m w
  rfl

theorem replays_recordSets (s : Script) (zoneID : String) :
    Replays (fun k => callListResourceRecordSets (scripted s) (recordSetsRequest zoneID k))
      s.recordSets (fun k r => Call.ListResourceRecordSets (recordSetsRequest zoneID k) r) := by
  intro k w
  rfl

/-! ## The calls of `paginate`, for any service

In the lemmas on `paginate` the three readers of a page are written `I` (its
items), `T` (whether it is truncated) and `N` (its cursor). -/

section Threading

variable {π κ α : Type} {fetch : κ → World σ → Except Error π × World σ}
  {I : π → List α} {T : π → Bool} {N : π → κ}
  {mk : κ → Except Error π → Call}

theorem records_hostedZones (client : Client σ) :
    Records (fun m => callListHostedZones client (hostedZonesRequest m))
      (fun m r => Call.ListHostedZones (hostedZonesRequest m) r) := by
  intro m w
  rfl

theorem records_recordSets (client : Client σ) (zoneID : String) :
    Records (fun k => callListResourceRecordSets client (recordSetsRequest zoneID k))
      (fun k r => Call.ListResourceRecordSets (recordSetsRequest zoneID k) r) := by
  intro k w
  rfl

/-- The calls a run adds to the trace are threaded. -/
theorem paginate_threaded (h : Records fetch mk) (fuel : Nat) :
    ∀ (acc : List α) (k : κ) (w : World σ),
      ∃ new, (paginate fetch I T N fuel acc k w).2.calls = w.calls ++ new ∧
        Threaded mk T N fuel k new := by
  induction fuel with
  | zero =>
    intro acc k w
    exact ⟨[], by simp [paginate], rfl⟩
  | succ n ih =>
    intro acc k w
    have hk := h k w
    unfold paginate
    rcases hf : fetch k w with ⟨r, w1⟩
    rw [hf] at hk
    simp only at hk
    cases r with
    | error e =>
      exact ⟨[mk k (Except.error e)], hk, Except.error e, [], rfl, rfl⟩
    | ok p =>
      cases ht : T p with
      | false =>
        refine ⟨[mk k (Except.ok p)], by simpa [ht] using hk, Except.ok p, [], rfl, ?_⟩
        simp [ht]
      | true =>
        obtain ⟨new, hnew, hthr⟩ := ih (acc ++ I p) (N p) w1
        refine ⟨mk k (Except.ok p) :: new, ?_, Except.ok p, new, rfl, ?_⟩
        · simp [ht, hnew, hk]
        · simpa [ht] using hthr

/-- An error a run returns is the error of its last call. -/
theorem paginate_error_origin (h : Records fetch mk) (fuel : Nat) :
    ∀ (acc : List α) (k : κ) (w : World σ) (zs : List α) (e : Error),
      (paginate fetch I T N fuel acc k w).1 = Outcome.returned (zs, some e) →
      ∃ k1, (paginate fetch I T N fuel acc k w).2.calls.getLast? =
        some (mk k1 (Except.error e)) := by
  induction fuel with
  | zero =>
    intro acc k w zs e hr
    simp [paginate] at hr
  | succ n ih =>
    intro acc k w zs e
    have hk := h k w
    unfold paginate
    rcases hf : fetch k w with ⟨r, w1⟩
    rw [hf] at hk
    simp only at hk
    cases r with
    | error e1 =>
      intro hr
      simp only [Outcome.returned.injEq, Prod.mk.injEq, Option.some.injEq] at hr
      obtain ⟨-, rfl⟩ := hr
      exact ⟨k, by simp [hk]⟩
    | ok p =>
      cases ht : T p with
      | false =>
        intro hr
        simp [ht] at hr
      | true =>
        simpa [ht] using ih (acc ++ I p) (N p) w1 zs e

theorem Threaded.head {fuel : Nat} {k : κ} {c : Call} {rest : List Call}
    (h : Threaded mk T N fuel k (c :: rest)) : ∃ r, c = mk k r := by
  cases fuel with
  | zero => simp [Threaded] at h
  | succ n =>
    obtain ⟨r, rest1, heq, -⟩ := h
    exact ⟨r, (List.cons.inj heq).1⟩

theorem Threaded.mem {fuel : Nat} :
    ∀ {k : κ} {new : List Call}, Threaded mk T N fuel k new →
      ∀ c ∈ new, ∃ k1 r, c = mk k1 r := by
  induction fuel with
  | zero =>
    intro k new h c hc
    simp only [Threaded] at h
    simp [h] at hc
  | succ n ih =>
    intro k new h c hc
    obtain ⟨r, rest, rfl, hrest⟩ := h
    rcases List.mem_cons.1 hc with hc1 | hc1
    · exact ⟨k, r, hc1⟩
    · cases r with
      | error e =>
        simp only at hrest
        simp [hrest] at hc1
      | ok p =>
        cases ht : T p with
        | false =>
          simp only [ht] at hrest
          simp at hrest
          simp [hrest] at hc1
        | true =>
          simp only [ht, if_true] at hrest
          exact ih hrest c hc1

/-- Two consecutive calls of a run: the first got a truncated page, the second
carries that page's cursor. -/
theorem Threaded.consecutive {fuel : Nat} :
    ∀ {k : κ} {new : List Call} {i : Nat} {c d : Call},
      Threaded mk T N fuel k new → new[i]? = some c → new[i + 1]? = some d →
      ∃ k1 p, c = mk k1 (Except.ok p) ∧ T p = true ∧ ∃ r, d = mk (N p) r := by
  induction fuel with
  | zero =>
    intro k new i c d h hc _
    simp only [Threaded] at h
    simp [h] at hc
  | succ n ih =>
    intro k new i c d h hc hd
    obtain ⟨r, rest, rfl, hrest⟩ := h
    have hne : rest ≠ [] := by
      rintro rfl
      simp at hd
    cases r with
    | error e => exact absurd hrest hne
    | ok p =>
      cases ht : T p with
      | false =>
        simp only [ht] at hrest
        exact absurd (by simpa using hrest) hne
      | true =>
        simp only [ht, if_true] at hrest
        cases i with
        | zero =>
          simp only [List.getElem?_cons_zero, Option.some.injEq] at hc
          subst hc
          cases rest with
          | nil => exact absurd rfl hne
          | cons e rest1 =>
            simp only [Nat.zero_add, List.getElem?_cons_succ, List.getElem?_cons_zero,
              Option.some.injEq] at hd
            subst hd
            exact ⟨k, p, rfl, ht, hrest.head⟩
        | succ j =>
          simp only [List.getElem?_cons_succ] at hc hd
          exact ih hrest hc hd

/-- After a truncated page a run with fuel left makes a next call. -/
theorem Threaded.next_exists {fuel : Nat} :
    ∀ {k : κ} {new : List Call} {i : Nat} {c : Call},
      Threaded mk T N fuel k new → new[i]? = some c → i + 1 < fuel →
      (∀ k1 r, c = mk k1 r → ∃ p, r = Except.ok p ∧ T p = true) →
      ∃ d, new[i + 1]? = some d := by
  induction fuel with
  | zero =>
    intro k new i c _ _ hi
    omega
  | succ n ih =>
    intro k new i c h hc hi hpage
    obtain ⟨r, rest, rfl, hrest⟩ := h
    cases i with
    | zero =>
      simp only [List.getElem?_cons_zero, Option.some.injEq] at hc
      subst hc
      obtain ⟨p, rfl, ht⟩ := hpage k r rfl
      simp only [ht, if_true] at hrest
      obtain ⟨m, rfl⟩ : ∃ m, n = m + 1 := ⟨n - 1, by omega⟩
      obtain ⟨r1, rest1, rfl, -⟩ := hrest
      exact ⟨mk (N p) r1, by simp⟩
    | succ j =>
      simp only [List.getElem?_cons_succ] at hc ⊢
      have hne : rest ≠ [] := by
        rintro rfl
        simp at hc
      cases r with
      | error e => exact absurd hrest hne
      | ok p =>
        cases ht : T p with
        | false =>
          simp only [ht] at hrest
          exact absurd (by simpa using hrest) hne
        | true =>
          simp only [ht, if_true] at hrest
          exact ih hrest hc (by omega) hpage

/-- The items a run returns without an error are the items of the pages its
calls received, in the order of the calls, after the items it started with. -/
theorem paginate_items (h : Records fetch mk) (pageOf : Call → Option π)
    (hok : ∀ k p, pageOf (mk k (Except.ok p)) = some p) (fuel : Nat) :
    ∀ (acc : List α) (k : κ) (w : World σ) (zs : List α) (new : List Call),
      (paginate fetch I T N fuel acc k w).1 = Outcome.returned (zs, none) →
      (paginate fetch I T N fuel acc k w).2.calls = w.calls ++ new →
      zs = acc ++ (new.filterMap pageOf).flatMap I := by
  induction fuel with
  | zero =>
    intro acc k w zs new hr
    simp [paginate] at hr
  | succ n ih =>
    intro acc k w zs new
    have hk := h k w
    unfold paginate
    rcases hf : fetch k w with ⟨r, w1⟩
    rw [hf] at hk
    simp only at hk
    cases r with
    | error e =>
      intro hr
      simp at hr
    | ok p =>
      cases ht : T p with
      | false =>
        intro hr hnew
        simp only [ht, Bool.not_false, if_true, Outcome.returned.injEq, Prod.mk.injEq,
          and_true] at hr hnew
        rw [hk] at hnew
        have hn := List.append_cancel_left hnew
        subst hn
        simp [hok, hr]
      | true =>
        intro hr hnew
        simp only [ht, Bool.not_true, Bool.false_eq_true, if_false] at hr hnew
        obtain ⟨rest, hrest, -⟩ := paginate_threaded (I := I) (T := T) (N := N) h n
          (acc ++ I p) (N p) w1
        have hn : new = mk k (Except.ok p) :: rest := by
          rw [hrest, hk, List.append_assoc] at hnew
          exact (List.append_cancel_left hnew).symm
        subst hn
        rw [ih (acc ++ I p) (N p) w1 zs rest hr hrest]
        simp [hok]

end Threading

/-! ## `paginate` against a scripted service -/

section Scripted

variable {π κ α : Type} {fetch : κ → World Nat → Except Error π × World Nat}
  {I : π → List α} {T : π → Bool} {N : π → κ}
  {script : Nat → Except Error π} {mk : κ → Except Error π → Call}

theorem paginate_error (h : Replays fetch script mk) (fuel : Nat) (acc : List α) (k : κ)
    (w : World Nat) (e : Error) (he : script w.svc = Except.error e) :
    paginate fetch I T N (fuel + 1) acc k w =
      (Outcome.returned ([], some e), answered (mk k (Except.error e)) w) := by
  unfold paginate
  rw [h k w, he]

theorem paginate_last (h : Replays fetch script mk) (fuel : Nat) (acc : List α) (k : κ)
    (w : World Nat) (p : π) (hp : script w.svc = Except.ok p) (ht : T p = false) :
    paginate fetch I T N (fuel + 1) acc k w =
      (Outcome.returned (acc ++ I p, none), answered (mk k (Except.ok p)) w) := by
  unfold paginate
  rw [h k w, hp]
  simp [ht]

theorem paginate_more (h : Replays fetch script mk) (fuel : Nat) (acc : List α) (k : κ)
    (w : World Nat) (p : π) (hp : script w.svc = Except.ok p) (ht : T p = true) :
    paginate fetch I T N (fuel + 1) acc k w =
      paginate fetch I T N fuel (acc ++ I p) (N p)
        (answered (mk k (Except.ok p)) w) := by
  conv_lhs => unfold paginate
  rw [h k w, hp]
  simp [ht]

@[simp] theorem answered_svc (call : Call) (w : World Nat) :
    (answered call w).svc = w.svc + 1 := rfl

@[simp] theorem answered_calls_length (call : Call) (w : World Nat) :
    (answered call w).calls.length = w.calls.length + 1 := by
  simp [answered]

theorem stops_eq_false {r : Except Error π} (h : stops T r = false) :
    ∃ p, r = Except.ok p ∧ T p = true := by
  cases r with
  | error e => simp [stops] at h
  | ok p => exact ⟨p, rfl, by simpa [stops] using h⟩

/-- A run over pages that are all truncated consumes them one per iteration. -/
theorem paginate_pages (h : Replays fetch script mk) (init : List π) :
    ∀ (fuel : Nat) (acc : List α) (k : κ) (w : World Nat),
      (List.range' w.svc init.length).map script = init.map Except.ok →
      (∀ p ∈ init, T p = true) →
      paginate fetch I T N (init.length + fuel) acc k w =
        paginate fetch I T N fuel (acc ++ init.flatMap I)
          (cursorAfter N k init)
          { w with
            svc := w.svc + init.length
            calls := w.calls ++ List.zipWith mk (k :: init.map N) (init.map Except.ok) } := by
  induction init with
  | nil =>
    intro fuel acc k w _ _
    simp [cursorAfter]
  | cons p ps ih =>
    intro fuel acc k w hs ht
    simp only [List.length_cons, List.range'_succ, List.map_cons, List.cons.injEq] at hs
    have hp := hs.1
    rw [show (p :: ps).length + fuel = (ps.length + fuel) + 1 by simp; omega]
    rw [paginate_more h _ _ _ _ p hp (ht p (by simp))]
    rw [ih fuel _ _ _ (by simpa [answered] using hs.2) (fun q hq => ht q (by simp [hq]))]
    have hsvc : w.svc + 1 + ps.length = w.svc + (ps.length + 1) := by omega
    simp [answered, cursorAfter, hsvc]

/-- While the responses are truncated pages the loop keeps iterating, one call
per iteration. -/
theorem paginate_running (h : Replays fetch script mk) (fuel : Nat) :
    ∀ (acc : List α) (k : κ) (w : World Nat),
      (∀ i, i < fuel → stops T (script (w.svc + i)) = false) →
      (paginate fetch I T N fuel acc k w).1 = Outcome.running ∧
      (paginate fetch I T N fuel acc k w).2.svc = w.svc + fuel ∧
      (paginate fetch I T N fuel acc k w).2.calls.length =
        w.calls.length + fuel := by
  induction fuel with
  | zero =>
    intro acc k w _
    simp [paginate]
  | succ n ih =>
    intro acc k w hs
    obtain ⟨p, hp, ht⟩ := stops_eq_false (hs 0 (by omega))
    rw [paginate_more h _ _ _ _ p hp ht]
    have := ih (acc ++ I p) (N p) (answered (mk k (Except.ok p)) w)
      (fun i hi => by
        have := hs (i + 1) (by omega)
        simpa [Nat.add_assoc, Nat.add_comm 1 i] using this)
    simp only [answered_svc, answered_calls_length] at this
    refine ⟨this.1, ?_, ?_⟩ <;> omega

/-- The loop returns at the first response that is an error or a page that is
not truncated, after exactly that many calls. -/
theorem paginate_stops_at (h : Replays fetch script mk) (m : Nat) :
    ∀ (fuel : Nat) (acc : List α) (k : κ) (w : World Nat),
      (∀ i, i < m → stops T (script (w.svc + i)) = false) →
      stops T (script (w.svc + m)) = true → m < fuel →
      (∃ r, (paginate fetch I T N fuel acc k w).1 = Outcome.returned r) ∧
      (paginate fetch I T N fuel acc k w).2.svc = w.svc + m + 1 ∧
      (paginate fetch I T N fuel acc k w).2.calls.length =
        w.calls.length + m + 1 := by
  induction m with
  | zero =>
    intro fuel acc k w _ hstop hfuel
    obtain ⟨f, rfl⟩ : ∃ f, fuel = f + 1 := ⟨fuel - 1, by omega⟩
    simp only [Nat.add_zero] at hstop
    cases hr : script w.svc with
    | error e =>
      rw [paginate_error h _ _ _ _ e hr]
      simp [answered]
    | ok p =>
      rw [hr] at hstop
      rw [paginate_last h _ _ _ _ p hr (by simpa [stops] using hstop)]
      simp [answered]
  | succ n ih =>
    intro fuel acc k w hs hstop hfuel
    obtain ⟨f, rfl⟩ : ∃ f, fuel = f + 1 := ⟨fuel - 1, by omega⟩
    obtain ⟨p, hp, ht⟩ := stops_eq_false (hs 0 (by omega))
    rw [paginate_more h _ _ _ _ p hp ht]
    have := ih f (acc ++ I p) (N p) (answered (mk k (Except.ok p)) w)
      (fun i hi => by
        have := hs (i + 1) (by omega)
        simpa [Nat.add_assoc, Nat.add_comm 1 i] using this)
      (by simpa [Nat.add_assoc, Nat.add_comm 1 n] using hstop) (by omega)
    simp only [answered_svc, answered_calls_length] at this
    refine ⟨this.1, ?_, ?_⟩ <;> omega

/-- The trace of calls only grows. -/
theorem paginate_calls_le (h : Replays fetch script mk) (fuel : Nat) :
    ∀ (acc : List α) (k : κ) (w : World Nat),
      w.calls.length ≤ (paginate fetch I T N fuel acc k w).2.calls.length := by
  induction fuel with
  | zero =>
    intro acc k w
    simp [paginate]
  | succ n ih =>
    intro acc k w
    cases hr : script w.svc with
    | error e =>
      rw [paginate_error h _ _ _ _ e hr]
      simp [answered]
    | ok p =>
      cases ht : T p with
      | false =>
        rw [paginate_last h _ _ _ _ p hr ht]
        simp [answered]
      | true =>
        rw [paginate_more h _ _ _ _ p hr ht]
        have := ih (acc ++ I p) (N p) (answered (mk k (Except.ok p)) w)
        simp only [answered_svc, answered_calls_length] at this
        omega

/-- After `n` truncated pages, any run with more fuel than `n` has made more
than `n` calls. -/
theorem paginate_calls_gt (h : Replays fetch script mk) (n : Nat) :
    ∀ (fuel : Nat) (acc : List α) (k : κ) (w : World Nat),
      (∀ i, i < n → stops T (script (w.svc + i)) = false) → n < fuel →
      w.calls.length + n <
        (paginate fetch I T N fuel acc k w).2.calls.length := by
  induction n with
  | zero =>
    intro fuel acc k w _ hfuel
    obtain ⟨f, rfl⟩ : ∃ f, fuel = f + 1 := ⟨fuel - 1, by omega⟩
    cases hr : script w.svc with
    | error e =>
      rw [paginate_error h _ _ _ _ e hr]
      simp [answered]
    | ok p =>
      cases ht : T p with
      | false =>
        rw [paginate_last h _ _ _ _ p hr ht]
        simp [answered]
      | true =>
        rw [paginate_more h _ _ _ _ p hr ht]
        have := paginate_calls_le (I := I) (T := T) (N := N) h f
          (acc ++ I p) (N p) (answered (mk k (Except.ok p)) w)
        simp only [answered_svc, answered_calls_length] at this
        omega
  | succ n ih =>
    intro fuel acc k w hs hfuel
    obtain ⟨f, rfl⟩ : ∃ f, fuel = f + 1 := ⟨fuel - 1, by omega⟩
    obtain ⟨p, hp, ht⟩ := stops_eq_false (hs 0 (by omega))
    rw [paginate_more h _ _ _ _ p hp ht]
    have := ih f (acc ++ I p) (N p) (answered (mk k (Except.ok p)) w)
      (fun i hi => by
        have := hs (i + 1) (by omega)
        simpa [Nat.add_assoc, Nat.add_comm 1 i] using this)
      (by omega)
    simp only [answered_svc, answered_calls_length] at this
    omega

/-- A script that replays `init` and then `r` replays `init`, and `r` next. -/
theorem script_split {init : List π} {r : Except Error π} {n : Nat}
    (hs : (List.range' n (init.length + 1)).map script = init.map Except.ok ++ [r]) :
    (List.range' n init.length).map script = init.map Except.ok ∧
      script (n + init.length) = r := by
  induction init generalizing n with
  | nil => simpa using hs
  | cons p ps ih =>
    simp only [List.length_cons, List.range'_succ, List.map_cons, List.cons_append,
      List.cons.injEq] at hs
    obtain ⟨h1, h2⟩ := ih hs.2
    refine ⟨?_, ?_⟩
    · simp [List.range'_succ, hs.1, h1]
    · rw [← h2]
      congr 1
      simp
      omega

theorem stops_eq_false_iff {r : Except Error π} :
    stops T r = false ↔ ∃ p, r = Except.ok p ∧ T p = true := by
  constructor
  · exact stops_eq_false
  · rintro ⟨p, rfl, hp⟩
    simp [stops, hp]

theorem stops_eq_true_iff {r : Except Error π} :
    stops T r = true ↔ ∀ p, r = Except.ok p → T p = false := by
  cases r with
  | error e => simp [stops]
  | ok p => simp [stops]

theorem stops_eq_true_iff_or {r : Except Error π} :
    stops T r = true ↔
      (∃ e, r = Except.error e) ∨ ∃ p, r = Except.ok p ∧ T p = false := by
  cases r with
  | error e => simp [stops]
  | ok p => simp [stops]

/-- The loop returns for some fuel exactly when some response is an error or a
page that is not truncated. -/
theorem paginate_returns_iff (h : Replays fetch script mk) (acc : List α) (k : κ)
    (w : World Nat) :
    (∃ fuel r, (paginate fetch I T N fuel acc k w).1 = Outcome.returned r) ↔
      ∃ i, stops T (script (w.svc + i)) = true := by
  constructor
  · rintro ⟨fuel, r, hr⟩
    by_contra hno
    have hall : ∀ i, i < fuel → stops T (script (w.svc + i)) = false := by
      intro i _
      cases hi : stops T (script (w.svc + i)) with
      | false => rfl
      | true => exact absurd ⟨i, hi⟩ hno
    have := (paginate_running (I := I) (N := N) h fuel acc k w hall).1
    rw [this] at hr
    cases hr
  · rintro ⟨i, hi⟩
    classical
    have hex : ∃ j, stops T (script (w.svc + j)) = true := ⟨i, hi⟩
    have hmin : ∀ j, j < Nat.find hex → stops T (script (w.svc + j)) = false := by
      intro j hj
      have := Nat.find_min hex hj
      simpa using this
    obtain ⟨⟨r, hr⟩, -⟩ := paginate_stops_at (I := I) (N := N) h (Nat.find hex)
      (Nat.find hex + 1) acc k w hmin (Nat.find_spec hex) (by omega)
    exact ⟨_, r, hr⟩

theorem answered_after (c : Call) (w : World Nat) (cs : List Call) (out log : List String) :
    (answered c w).after cs out log = w.after (c :: cs) out log := by
  simp [answered, World.after, Nat.add_assoc, Nat.add_comm 1]

/-- A run against a script of truncated pages `init` followed by a response `r`
that ends the pagination: it returns after one call a response, with the items
of all the pages when `r` is a page and with the error alone when `r` is an
error.  `tag` reads off every call of the run the same value `b`. -/
theorem paginate_script_end {β : Type} (h : Replays fetch script mk) (tag : Call → β) (b : β)
    (htag : ∀ k r, tag (mk k r) = b) (init : List π) :
    ∀ (r : Except Error π) (fuel : Nat) (acc : List α) (k : κ) (w : World Nat),
      (List.range' w.svc (init.length + 1)).map script = init.map Except.ok ++ [r] →
      (∀ p ∈ init, T p = true) → (∀ p, r = Except.ok p → T p = false) →
      init.length < fuel →
      ∃ cs, cs.map tag = List.replicate (init.length + 1) b ∧
        paginate fetch I T N fuel acc k w =
          (Outcome.returned (scriptResult I acc init r), w.after cs [] []) := by
  induction init with
  | nil =>
    intro r fuel acc k w hs _ hr hfuel
    obtain ⟨f, rfl⟩ : ∃ f, fuel = f + 1 := ⟨fuel - 1, by omega⟩
    have hs0 : script w.svc = r := by simpa using hs
    cases r with
    | error e =>
      refine ⟨[mk k (Except.error e)], by simp [htag], ?_⟩
      rw [paginate_error h _ _ _ _ e hs0]
      simp [answered, World.after, scriptResult]
    | ok p =>
      refine ⟨[mk k (Except.ok p)], by simp [htag], ?_⟩
      rw [paginate_last h _ _ _ _ p hs0 (hr p rfl)]
      simp [answered, World.after, scriptResult]
  | cons p ps ih =>
    intro r fuel acc k w hs ht hr hfuel
    obtain ⟨f, rfl⟩ : ∃ f, fuel = f + 1 := ⟨fuel - 1, by omega⟩
    simp only [List.length_cons, List.range'_succ, List.map_cons, List.cons_append,
      List.cons.injEq] at hs
    obtain ⟨cs, hcs, hrun⟩ := ih r f (acc ++ I p) (N p) (answered (mk k (Except.ok p)) w)
      (by simpa [List.range'_succ] using hs.2) (fun q hq => ht q (by simp [hq])) hr
      (by simp at hfuel; omega)
    refine ⟨mk k (Except.ok p) :: cs, ?_, ?_⟩
    · simp [htag, hcs, List.replicate_succ]
    · rw [paginate_more h _ _ _ _ p hs.1 (ht p (by simp)), hrun, answered_after]
      cases r <;> simp [scriptResult]

end Scripted

/-- What `listHostedZones` does against a script of truncated pages followed by
a response that ends the pagination. -/
theorem listHostedZones_script_end (s : Script) (init : List ListHostedZonesOutput)
    (r : Except Error ListHostedZonesOutput) (fuel : Nat) (w : World Nat)
    (hs : (List.range' w.svc (init.length + 1)).map s.hostedZones =
      init.map Except.ok ++ [r])
    (ht : ∀ p ∈ init, p.IsTruncated = true)
    (hr : ∀ p, r = Except.ok p → p.IsTruncated = false) (hfuel : init.length < fuel) :
    ∃ cs, cs.map callTarget = List.replicate (init.length + 1) Target.zones ∧
      listHostedZones (scripted s) fuel w =
        (Outcome.returned (scriptResult ListHostedZonesOutput.HostedZones [] init r),
          w.after cs [] []) := by
  obtain ⟨cs, hcs, hrun⟩ := paginate_script_end (I := ListHostedZonesOutput.HostedZones)
    (N := ListHostedZonesOutput.NextMarker) (replays_hostedZones s) callTarget Target.zones
    (fun _ _ => rfl) init r fuel [] none w hs ht hr hfuel
  refine ⟨cs, hcs, ?_⟩
  rw [listHostedZones, listHostedZonesLoop_eq, hrun]

/-- What `listResourceRecordSets` does against a script of truncated pages
followed by a response that ends the pagination. -/
theorem listResourceRecordSets_script_end (s : Script) (zoneID : String)
    (init : List ListResourceRecordSetsOutput)
    (r : Except Error ListResourceRecordSetsOutput) (fuel : Nat) (w : World Nat)
    (hs : (List.range' w.svc (init.length + 1)).map s.recordSets =
      init.map Except.ok ++ [r])
    (ht : ∀ p ∈ init, p.IsTruncated = true)
    (hr : ∀ p, r = Except.ok p → p.IsTruncated = false) (hfuel : init.length < fuel) :
    ∃ cs, cs.map callTarget =
        List.replicate (init.length + 1) (Target.records (some zoneID)) ∧
      listResourceRecordSets (scripted s) zoneID fuel w =
        (Outcome.returned
          (scriptResult ListResourceRecordSetsOutput.ResourceRecordSets [] init r),
          w.after cs [] []) := by
  obtain ⟨cs, hcs, hrun⟩ := paginate_script_end
    (I := ListResourceRecordSetsOutput.ResourceRecordSets) (N := nextRecord)
    (replays_recordSets s zoneID) callTarget (Target.records (some zoneID))
    (fun _ _ => rfl) init r fuel [] (none, "") w hs ht hr hfuel
  refine ⟨cs, hcs, ?_⟩
  rw [listResourceRecordSets, listResourceRecordSetsLoop_eq, hrun]

/-! ## C1: the result is the concatenation of the pages -/

/-- C1.  Against a service that answers with the pages `init ++ [last]`, those
of `init` truncated and `last` not, `listHostedZones` returns the concatenation
of the pages' `HostedZones` in response order with no error, and
`listResourceRecordSets` the concatenation of the pages' `ResourceRecordSets`,
as soon as the fuel covers the `init.length + 1` iterations. -/
theorem listing_concatenates_pages :
    (∀ (s : Script) (w : World Nat) (init : List ListHostedZonesOutput)
        (last : ListHostedZonesOutput) (fuel : Nat),
      (List.range' w.svc (init.length + 1)).map s.hostedZones =
        (init ++ [last]).map Except.ok →
      (∀ p ∈ init, p.IsTruncated = true) → last.IsTruncated = false →
      init.length < fuel →
      (listHostedZones (scripted s) fuel w).1 =
        Outcome.returned
          ((init ++ [last]).flatMap ListHostedZonesOutput.HostedZones, none)) ∧
    (∀ (s : Script) (zoneID : String) (w : World Nat)
        (init : List ListResourceRecordSetsOutput) (last : ListResourceRecordSetsOutput)
        (fuel : Nat),
      (List.range' w.svc (init.length + 1)).map s.recordSets =
        (init ++ [last]).map Except.ok →
      (∀ p ∈ init, p.IsTruncated = true) → last.IsTruncated = false →
      init.length < fuel →
      (listResourceRecordSets (scripted s) zoneID fuel w).1 =
        Outcome.returned
          ((init ++ [last]).flatMap ListResourceRecordSetsOutput.ResourceRecordSets, none)) := by
  constructor
  · intro s w init last fuel hs ht hl hfuel
    rw [List.map_append, List.map_singleton] at hs
    obtain ⟨hinit, hlast⟩ := script_split hs
    obtain ⟨f, rfl⟩ : ∃ f, fuel = init.length + (f + 1) := ⟨fuel - init.length - 1, by omega⟩
    rw [listHostedZones, listHostedZonesLoop_eq,
      paginate_pages (replays_hostedZones s) init _ _ _ _ hinit ht,
      paginate_last (replays_hostedZones s) _ _ _ _ last hlast hl]
    simp
  · intro s zoneID w init last fuel hs ht hl hfuel
    rw [List.map_append, List.map_singleton] at hs
    obtain ⟨hinit, hlast⟩ := script_split hs
    obtain ⟨f, rfl⟩ : ∃ f, fuel = init.length + (f + 1) := ⟨fuel - init.length - 1, by omega⟩
    rw [listResourceRecordSets, listResourceRecordSetsLoop_eq,
      paginate_pages (replays_recordSets s zoneID) init _ _ _ _ hinit ht,
      paginate_last (replays_recordSets s zoneID) _ _ _ _ last hlast hl]
    simp

/-- C1 at the pages of the specification's first test: `[a, b]` truncated with
a cursor, then `[c]`, give `[a, b, c]`. -/
theorem listing_concatenates_pages_witness :
    (listHostedZones (scripted twoPages) 2 freshWorld).1 =
        Outcome.returned ([zoneA, zoneB, zoneC], none) ∧
      (listResourceRecordSets (scripted twoPages) "/hostedzone/ZA" 2 freshWorld).1 =
        Outcome.returned ([recordA, recordB, recordC], none) :=
  ⟨listing_concatenates_pages.1 twoPages freshWorld [zonePage1] zonePage2 2 rfl
      (by simp [zonePage1]) rfl (by decide),
    listing_concatenates_pages.2 twoPages "/hostedzone/ZA" freshWorld [recordPage1] recordPage2 2
      rfl (by simp [recordPage1]) rfl (by decide)⟩

/-! ## C2: an error ends the listing and discards the pages read -/

/-- C2.  When the calls before call `k = init.length + 1` succeed with truncated
pages and call `k` fails with `e`, both paginators return `e` with an empty
item sequence, and the service has been called exactly `k` times, whatever fuel
is left. -/
theorem listing_error_discards_pages :
    (∀ (s : Script) (w : World Nat) (init : List ListHostedZonesOutput) (e : Error)
        (fuel : Nat),
      (List.range' w.svc (init.length + 1)).map s.hostedZones =
        init.map Except.ok ++ [Except.error e] →
      (∀ p ∈ init, p.IsTruncated = true) → init.length < fuel →
      (listHostedZones (scripted s) fuel w).1 = Outcome.returned ([], some e) ∧
      (listHostedZones (scripted s) fuel w).2.svc = w.svc + (init.length + 1) ∧
      (listHostedZones (scripted s) fuel w).2.calls.length =
        w.calls.length + (init.length + 1)) ∧
    (∀ (s : Script) (zoneID : String) (w : World Nat)
        (init : List ListResourceRecordSetsOutput) (e : Error) (fuel : Nat),
      (List.range' w.svc (init.length + 1)).map s.recordSets =
        init.map Except.ok ++ [Except.error e] →
      (∀ p ∈ init, p.IsTruncated = true) → init.length < fuel →
      (listResourceRecordSets (scripted s) zoneID fuel w).1 = Outcome.returned ([], some e) ∧
      (listResourceRecordSets (scripted s) zoneID fuel w).2.svc =
        w.svc + (init.length + 1) ∧
      (listResourceRecordSets (scripted s) zoneID fuel w).2.calls.length =
        w.calls.length + (init.length + 1)) := by
  constructor
  · intro s w init e fuel hs ht hfuel
    obtain ⟨hinit, hlast⟩ := script_split hs
    obtain ⟨f, rfl⟩ : ∃ f, fuel = init.length + (f + 1) := ⟨fuel - init.length - 1, by omega⟩
    rw [listHostedZones, listHostedZonesLoop_eq,
      paginate_pages (replays_hostedZones s) init _ _ _ _ hinit ht,
      paginate_error (replays_hostedZones s) _ _ _ _ e hlast]
    simp
    omega
  · intro s zoneID w init e fuel hs ht hfuel
    obtain ⟨hinit, hlast⟩ := script_split hs
    obtain ⟨f, rfl⟩ : ∃ f, fuel = init.length + (f + 1) := ⟨fuel - init.length - 1, by omega⟩
    rw [listResourceRecordSets, listResourceRecordSetsLoop_eq,
      paginate_pages (replays_recordSets s zoneID) init _ _ _ _ hinit ht,
      paginate_error (replays_recordSets s zoneID) _ _ _ _ e hlast]
    simp
    omega

/-- C2 at a service whose second call fails: the two zones (records) of the
first page are not returned, and two calls are made although the fuel allows
five. -/
theorem listing_error_discards_pages_witness :
    ((listHostedZones (scripted failsSecond) 5 freshWorld).1 =
        Outcome.returned ([], some { msg := "Throttling" }) ∧
      (listHostedZones (scripted failsSecond) 5 freshWorld).2.svc = 2 ∧
      (listHostedZones (scripted failsSecond) 5 freshWorld).2.calls.length = 2) ∧
    ((listResourceRecordSets (scripted failsSecond) "/hostedzone/ZA" 5 freshWorld).1 =
        Outcome.returned ([], some { msg := "Throttling" }) ∧
      (listResourceRecordSets (scripted failsSecond) "/hostedzone/ZA" 5 freshWorld).2.svc = 2 ∧
      (listResourceRecordSets (scripted failsSecond) "/hostedzone/ZA" 5
        freshWorld).2.calls.length = 2) :=
  ⟨listing_error_discards_pages.1 failsSecond freshWorld [zonePage1] { msg := "Throttling" } 5
      rfl (by simp [zonePage1]) (by decide),
    listing_error_discards_pages.2 failsSecond "/hostedzone/ZA" freshWorld [recordPage1]
      { msg := "Throttling" } 5 rfl (by simp [recordPage1]) (by decide)⟩

/-! ## C5: the number of calls -/

/-- C5.  When response number `m + 1` is the first that is an error or a page
with `IsTruncated = false`, both paginators return after exactly `m + 1` calls,
whatever fuel is left; and when the first response is a page with
`IsTruncated = false` they make that one call, with an empty cursor, and return
that page's items as they are, whatever the page's cursor fields hold. -/
theorem listing_call_count :
    (∀ (s : Script) (w : World Nat) (m fuel : Nat),
      (∀ i, i < m → ∃ p, s.hostedZones (w.svc + i) = Except.ok p ∧ p.IsTruncated = true) →
      (∀ p, s.hostedZones (w.svc + m) = Except.ok p → p.IsTruncated = false) → m < fuel →
      (∃ r, (listHostedZones (scripted s) fuel w).1 = Outcome.returned r) ∧
      (listHostedZones (scripted s) fuel w).2.calls.length = w.calls.length + (m + 1)) ∧
    (∀ (s : Script) (zoneID : String) (w : World Nat) (m fuel : Nat),
      (∀ i, i < m → ∃ p, s.recordSets (w.svc + i) = Except.ok p ∧ p.IsTruncated = true) →
      (∀ p, s.recordSets (w.svc + m) = Except.ok p → p.IsTruncated = false) → m < fuel →
      (∃ r, (listResourceRecordSets (scripted s) zoneID fuel w).1 = Outcome.returned r) ∧
      (listResourceRecordSets (scripted s) zoneID fuel w).2.calls.length =
        w.calls.length + (m + 1)) ∧
    (∀ (s : Script) (w : World Nat) (p : ListHostedZonesOutput) (fuel : Nat),
      s.hostedZones w.svc = Except.ok p → p.IsTruncated = false → 0 < fuel →
      listHostedZones (scripted s) fuel w =
        (Outcome.returned (p.HostedZones, none),
          { w with
            svc := w.svc + 1
            calls := w.calls ++ [Call.ListHostedZones { Marker := none } (Except.ok p)] })) ∧
    (∀ (s : Script) (zoneID : String) (w : World Nat) (p : ListResourceRecordSetsOutput)
        (fuel : Nat),
      s.recordSets w.svc = Except.ok p → p.IsTruncated = false → 0 < fuel →
      listResourceRecordSets (scripted s) zoneID fuel w =
        (Outcome.returned (p.ResourceRecordSets, none),
          { w with
            svc := w.svc + 1
            calls := w.calls ++ [Call.ListResourceRecordSets
              { HostedZoneId := some zoneID, StartRecordName := none, StartRecordType := "" }
              (Except.ok p)] })) := by
  refine ⟨?_, ?_, ?_, ?_⟩
  · intro s w m fuel hmore hstop hfuel
    rw [listHostedZones, listHostedZonesLoop_eq]
    have := paginate_stops_at (I := ListHostedZonesOutput.HostedZones)
      (N := ListHostedZonesOutput.NextMarker) (replays_hostedZones s) m fuel [] none w
      (fun i hi => stops_eq_false_iff.2 (hmore i hi)) (stops_eq_true_iff.2 hstop) hfuel
    exact ⟨this.1, by omega⟩
  · intro s zoneID w m fuel hmore hstop hfuel
    rw [listResourceRecordSets, listResourceRecordSetsLoop_eq]
    have := paginate_stops_at (I := ListResourceRecordSetsOutput.ResourceRecordSets)
      (N := nextRecord) (replays_recordSets s zoneID) m fuel [] (none, "") w
      (fun i hi => stops_eq_false_iff.2 (hmore i hi)) (stops_eq_true_iff.2 hstop) hfuel
    exact ⟨this.1, by omega⟩
  · intro s w p fuel hp ht hfuel
    obtain ⟨f, rfl⟩ : ∃ f, fuel = f + 1 := ⟨fuel - 1, by omega⟩
    rw [listHostedZones, listHostedZonesLoop_eq,
      paginate_last (replays_hostedZones s) _ _ _ _ p hp ht]
    simp [answered, hostedZonesRequest]
  · intro s zoneID w p fuel hp ht hfuel
    obtain ⟨f, rfl⟩ : ∃ f, fuel = f + 1 := ⟨fuel - 1, by omega⟩
    rw [listResourceRecordSets, listResourceRecordSetsLoop_eq,
      paginate_last (replays_recordSets s zoneID) _ _ _ _ p hp ht]
    simp [answered, recordSetsRequest]

/-- C5 at three services: two truncated-then-last pages give two calls; a page
that fails second gives two calls; a first page with `IsTruncated = false` and a
cursor present gives one call and that page's items. -/
theorem listing_call_count_witness :
    (listHostedZones (scripted twoPages) 7 freshWorld).2.calls.length = 2 ∧
    (listResourceRecordSets (scripted failsSecond) "/hostedzone/ZA" 7
      freshWorld).2.calls.length = 2 ∧
    listHostedZones (scripted onePage) 7 freshWorld =
      (Outcome.returned ([zoneA, zoneB], none),
        { svc := 1
          calls := [Call.ListHostedZones { Marker := none } (Except.ok zonePageWithMarker)]
          stdout := []
          logged := [] }) ∧
    listResourceRecordSets (scripted onePage) "/hostedzone/ZA" 7 freshWorld =
      (Outcome.returned ([recordA, recordB], none),
        { svc := 1
          calls := [Call.ListResourceRecordSets
            { HostedZoneId := some "/hostedzone/ZA", StartRecordName := none,
              StartRecordType := "" }
            (Except.ok { recordPage1 with IsTruncated := false })]
          stdout := []
          logged := [] }) :=
  ⟨(listing_call_count.1 twoPages freshWorld 1 7
      (fun i hi => by
        obtain rfl : i = 0 := by omega
        exact ⟨zonePage1, rfl, rfl⟩)
      (fun p hp => by
        cases (Except.ok.inj hp : zonePage2 = p)
        rfl)
      (by decide)).2,
    (listing_call_count.2.1 failsSecond "/hostedzone/ZA" freshWorld 1 7
      (fun i hi => by
        obtain rfl : i = 0 := by omega
        exact ⟨recordPage1, rfl, rfl⟩)
      (fun p hp => by cases hp)
      (by decide)).2,
    listing_call_count.2.2.1 onePage freshWorld zonePageWithMarker 7 rfl rfl (by decide),
    listing_call_count.2.2.2 onePage "/hostedzone/ZA" freshWorld
      { recordPage1 with IsTruncated := false } 7 rfl rfl (by decide)⟩

/-! ## C10: no ceiling on the number of pages -/

/-- C10.  While the first `n` responses are truncated pages, a run of at most
`n` iterations is still running after as many calls as iterations, and a run
allowed more than `n` iterations makes more than `n` calls.  So against a
service that only ever answers with truncated pages the paginators return for
no fuel, and they return for some fuel exactly when some response is an error or
a page with `IsTruncated = false`. -/
theorem listing_has_no_page_ceiling :
    (∀ (s : Script) (w : World Nat) (n fuel : Nat),
      (∀ i, i < n → ∃ p, s.hostedZones (w.svc + i) = Except.ok p ∧ p.IsTruncated = true) →
      (fuel ≤ n →
        (listHostedZones (scripted s) fuel w).1 = Outcome.running ∧
        (listHostedZones (scripted s) fuel w).2.calls.length = w.calls.length + fuel) ∧
      (n < fuel →
        w.calls.length + n < (listHostedZones (scripted s) fuel w).2.calls.length)) ∧
    (∀ (s : Script) (zoneID : String) (w : World Nat) (n fuel : Nat),
      (∀ i, i < n → ∃ p, s.recordSets (w.svc + i) = Except.ok p ∧ p.IsTruncated = true) →
      (fuel ≤ n →
        (listResourceRecordSets (scripted s) zoneID fuel w).1 = Outcome.running ∧
        (listResourceRecordSets (scripted s) zoneID fuel w).2.calls.length =
          w.calls.length + fuel) ∧
      (n < fuel →
        w.calls.length + n <
          (listResourceRecordSets (scripted s) zoneID fuel w).2.calls.length)) ∧
    (∀ (s : Script) (w : World Nat),
      (∀ i, ∃ p, s.hostedZones (w.svc + i) = Except.ok p ∧ p.IsTruncated = true) →
      ∀ fuel, (listHostedZones (scripted s) fuel w).1 = Outcome.running) ∧
    (∀ (s : Script) (zoneID : String) (w : World Nat),
      (∀ i, ∃ p, s.recordSets (w.svc + i) = Except.ok p ∧ p.IsTruncated = true) →
      ∀ fuel, (listResourceRecordSets (scripted s) zoneID fuel w).1 = Outcome.running) ∧
    (∀ (s : Script) (w : World Nat),
      (∃ fuel r, (listHostedZones (scripted s) fuel w).1 = Outcome.returned r) ↔
        ∃ i, (∃ e, s.hostedZones (w.svc + i) = Except.error e) ∨
          ∃ p, s.hostedZones (w.svc + i) = Except.ok p ∧ p.IsTruncated = false) ∧
    (∀ (s : Script) (zoneID : String) (w : World Nat),
      (∃ fuel r, (listResourceRecordSets (scripted s) zoneID fuel w).1 = Outcome.returned r) ↔
        ∃ i, (∃ e, s.recordSets (w.svc + i) = Except.error e) ∨
          ∃ p, s.recordSets (w.svc + i) = Except.ok p ∧ p.IsTruncated = false) := by
  refine ⟨?_, ?_, ?_, ?_, ?_, ?_⟩
  · intro s w n fuel hmore
    simp only [listHostedZones, listHostedZonesLoop_eq]
    refine ⟨fun hfuel => ?_, fun hfuel => ?_⟩
    · have := paginate_running (I := ListHostedZonesOutput.HostedZones)
        (N := ListHostedZonesOutput.NextMarker) (replays_hostedZones s) fuel [] none w
        (fun i hi => stops_eq_false_iff.2 (hmore i (by omega)))
      exact ⟨this.1, this.2.2⟩
    · exact paginate_calls_gt (replays_hostedZones s) n fuel [] none w
        (fun i hi => stops_eq_false_iff.2 (hmore i hi)) hfuel
  · intro s zoneID w n fuel hmore
    simp only [listResourceRecordSets, listResourceRecordSetsLoop_eq]
    refine ⟨fun hfuel => ?_, fun hfuel => ?_⟩
    · have := paginate_running (I := ListResourceRecordSetsOutput.ResourceRecordSets)
        (N := nextRecord) (replays_recordSets s zoneID) fuel [] (none, "") w
        (fun i hi => stops_eq_false_iff.2 (hmore i (by omega)))
      exact ⟨this.1, this.2.2⟩
    · exact paginate_calls_gt (replays_recordSets s zoneID) n fuel [] (none, "") w
        (fun i hi => stops_eq_false_iff.2 (hmore i hi)) hfuel
  · intro s w hmore fuel
    rw [listHostedZones, listHostedZonesLoop_eq]
    exact (paginate_running (replays_hostedZones s) fuel [] none w
      (fun i _ => stops_eq_false_iff.2 (hmore i))).1
  · intro s zoneID w hmore fuel
    rw [listResourceRecordSets, listResourceRecordSetsLoop_eq]
    exact (paginate_running (replays_recordSets s zoneID) fuel [] (none, "") w
      (fun i _ => stops_eq_false_iff.2 (hmore i))).1
  · intro s w
    simp only [listHostedZones, listHostedZonesLoop_eq]
    rw [paginate_returns_iff (replays_hostedZones s)]
    simp only [stops_eq_true_iff_or]
  · intro s zoneID w
    simp only [listResourceRecordSets, listResourceRecordSetsLoop_eq]
    rw [paginate_returns_iff (replays_recordSets s zoneID)]
    simp only [stops_eq_true_iff_or]

/-- C10 at a service that answers every request with a truncated page: with
fuel for 50 iterations the paginators are still running after 50 calls. -/
theorem listing_has_no_page_ceiling_witness :
    ((listHostedZones (scripted neverDone) 50 freshWorld).1 = Outcome.running ∧
      (listHostedZones (scripted neverDone) 50 freshWorld).2.calls.length = 0 + 50) ∧
    ((listResourceRecordSets (scripted neverDone) "/hostedzone/ZA" 50 freshWorld).1 =
        Outcome.running ∧
      (listResourceRecordSets (scripted neverDone) "/hostedzone/ZA" 50
        freshWorld).2.calls.length = 0 + 50) ∧
    (∀ fuel, (listHostedZones (scripted neverDone) fuel freshWorld).1 = Outcome.running) ∧
    (∀ fuel, (listResourceRecordSets (scripted neverDone) "/hostedzone/ZA" fuel
      freshWorld).1 = Outcome.running) :=
  ⟨(listing_has_no_page_ceiling.1 neverDone freshWorld 50 50
      (fun _ _ => ⟨zonePage1, rfl, rfl⟩)).1 (Nat.le_refl 50),
    (listing_has_no_page_ceiling.2.1 neverDone "/hostedzone/ZA" freshWorld 50 50
      (fun _ _ => ⟨recordPage1, rfl, rfl⟩)).1 (Nat.le_refl 50),
    listing_has_no_page_ceiling.2.2.1 neverDone freshWorld (fun _ => ⟨zonePage1, rfl, rfl⟩),
    listing_has_no_page_ceiling.2.2.2.1 neverDone "/hostedzone/ZA" freshWorld
      (fun _ => ⟨recordPage1, rfl, rfl⟩)⟩

/-! ## C3: the cursor is threaded from each response into the next request -/

/-- C3.  For every service, the calls a run of `listHostedZones` adds to the
trace are `ListHostedZones` calls, the first with `Marker = none`, and each
later one with the `NextMarker` of the page the call before it received; the
calls a run of `listResourceRecordSets` adds are `ListResourceRecordSets` calls
for the caller's zone, the first with `StartRecordName = none` and an empty
`StartRecordType`, each later one with both the `NextRecordName` and the
`NextRecordType` of the page the call before it received. -/
theorem listing_threads_cursor :
    (∀ (σ : Type) (client : Client σ) (fuel : Nat) (w : World σ),
      ∃ new, (listHostedZones client fuel w).2.calls = w.calls ++ new ∧
        (∀ call ∈ new, ∃ input result, call = Call.ListHostedZones input result) ∧
        (0 < fuel → ∃ result,
          new[0]? = some (Call.ListHostedZones { Marker := none } result)) ∧
        (∀ i input result inputNext resultNext,
          new[i]? = some (Call.ListHostedZones input result) →
          new[i + 1]? = some (Call.ListHostedZones inputNext resultNext) →
          ∃ page, result = Except.ok page ∧ inputNext.Marker = page.NextMarker)) ∧
    (∀ (σ : Type) (client : Client σ) (zoneID : String) (fuel : Nat) (w : World σ),
      ∃ new, (listResourceRecordSets client zoneID fuel w).2.calls = w.calls ++ new ∧
        (∀ call ∈ new, ∃ input result,
          call = Call.ListResourceRecordSets input result ∧
            input.HostedZoneId = some zoneID) ∧
        (0 < fuel → ∃ result,
          new[0]? = some (Call.ListResourceRecordSets
            { HostedZoneId := some zoneID, StartRecordName := none, StartRecordType := "" }
            result)) ∧
        (∀ i input result inputNext resultNext,
          new[i]? = some (Call.ListResourceRecordSets input result) →
          new[i + 1]? = some (Call.ListResourceRecordSets inputNext resultNext) →
          ∃ page, result = Except.ok page ∧
            inputNext.StartRecordName = page.NextRecordName ∧
            inputNext.StartRecordType = page.NextRecordType)) := by
  constructor
  · intro σ client fuel w
    obtain ⟨new, hnew, hthr⟩ := paginate_threaded
      (I := ListHostedZonesOutput.HostedZones)
      (T := ListHostedZonesOutput.IsTruncated)
      (N := ListHostedZonesOutput.NextMarker) (records_hostedZones client) fuel [] none w
    refine ⟨new, by rw [listHostedZones, listHostedZonesLoop_eq]; exact hnew, ?_, ?_, ?_⟩
    · intro call hcall
      obtain ⟨k, r, rfl⟩ := hthr.mem call hcall
      exact ⟨_, _, rfl⟩
    · intro hfuel
      obtain ⟨f, rfl⟩ : ∃ f, fuel = f + 1 := ⟨fuel - 1, by omega⟩
      obtain ⟨r, rest, rfl, -⟩ := hthr
      exact ⟨r, by simp [hostedZonesRequest]⟩
    · intro i input result inputNext resultNext hi hnext
      obtain ⟨k, p, hc, -, r, hd⟩ := hthr.consecutive hi hnext
      simp only [Call.ListHostedZones.injEq, hostedZonesRequest] at hc hd
      obtain ⟨-, rfl⟩ := hc
      obtain ⟨rfl, -⟩ := hd
      exact ⟨p, rfl, rfl⟩
  · intro σ client zoneID fuel w
    obtain ⟨new, hnew, hthr⟩ := paginate_threaded
      (I := ListResourceRecordSetsOutput.ResourceRecordSets)
      (T := ListResourceRecordSetsOutput.IsTruncated)
      (N := nextRecord) (records_recordSets client zoneID) fuel [] (none, "") w
    refine ⟨new, by rw [listResourceRecordSets, listResourceRecordSetsLoop_eq]; exact hnew,
      ?_, ?_, ?_⟩
    · intro call hcall
      obtain ⟨k, r, rfl⟩ := hthr.mem call hcall
      exact ⟨_, _, rfl, rfl⟩
    · intro hfuel
      obtain ⟨f, rfl⟩ : ∃ f, fuel = f + 1 := ⟨fuel - 1, by omega⟩
      obtain ⟨r, rest, rfl, -⟩ := hthr
      exact ⟨r, by simp [recordSetsRequest]⟩
    · intro i input result inputNext resultNext hi hnext
      obtain ⟨k, p, hc, -, r, hd⟩ := hthr.consecutive hi hnext
      simp only [Call.ListResourceRecordSets.injEq, recordSetsRequest] at hc hd
      obtain ⟨-, rfl⟩ := hc
      obtain ⟨rfl, -⟩ := hd
      exact ⟨p, rfl, rfl, rfl⟩

/-! ## C6: a truncated page without a cursor -/

/-- C6 fails.  After a truncated page without a cursor the paginators raise no
error: they keep the page's items and send a next request with an empty cursor,
for `listHostedZones` the very request they started with.  Against a service
whose pages are all of this kind they are still running after four calls, all
four the same request. -/
theorem malformed_truncation_counterexample :
    listHostedZones (scripted malformedOnce) 2 freshWorld =
      (Outcome.returned ([zoneA, zoneC], none),
        { svc := 2
          calls :=
            [Call.ListHostedZones { Marker := none } (Except.ok zonePageNoMarker),
              Call.ListHostedZones { Marker := none } (Except.ok zonePage2)]
          stdout := []
          logged := [] }) ∧
    listResourceRecordSets (scripted malformedOnce) "/hostedzone/ZA" 2 freshWorld =
      (Outcome.returned ([recordA, recordC], none),
        { svc := 2
          calls :=
            [Call.ListResourceRecordSets
                { HostedZoneId := some "/hostedzone/ZA", StartRecordName := none,
                  StartRecordType := "" }
                (Except.ok recordPageNoName),
              Call.ListResourceRecordSets
                { HostedZoneId := some "/hostedzone/ZA", StartRecordName := none,
                  StartRecordType := "TXT" }
                (Except.ok recordPage2)]
          stdout := []
          logged := [] }) ∧
    listHostedZones (scripted malformedAlways) 4 freshWorld =
      (Outcome.running,
        { svc := 4
          calls :=
            List.replicate 4
              (Call.ListHostedZones { Marker := none } (Except.ok zonePageNoMarker))
          stdout := []
          logged := [] }) :=
  ⟨rfl, rfl, rfl⟩

/-- C6 as amended.  For every service: after a page with `IsTruncated = true`
and no cursor, a run with fuel left makes a next call, `listHostedZones` with
`Marker = none` and `listResourceRecordSets` with `StartRecordName = none` and
the page's `NextRecordType`; the items a paginator returns without an error are
the items of every page its calls received, in call order, the pages without a
cursor included; and an error a paginator returns is the error its last call
received from the service, so no error of its own is ever raised.  Against a
service that answers with truncated pages, with or without a cursor, and then
a last page, the paginators do return, with the items of all the pages. -/
theorem malformed_truncation_continues :
    (∀ (σ : Type) (client : Client σ) (fuel : Nat) (w : World σ),
      ∃ new, (listHostedZones client fuel w).2.calls = w.calls ++ new ∧
        (∀ i input page,
          new[i]? = some (Call.ListHostedZones input (Except.ok page)) →
          page.IsTruncated = true → page.NextMarker = none → i + 1 < fuel →
          ∃ result, new[i + 1]? = some (Call.ListHostedZones { Marker := none } result)) ∧
        (∀ zones,
          (listHostedZones client fuel w).1 = Outcome.returned (zones, none) →
          zones = (new.filterMap hostedZonesPage).flatMap ListHostedZonesOutput.HostedZones) ∧
        (∀ zones e,
          (listHostedZones client fuel w).1 = Outcome.returned (zones, some e) →
          ∃ input, new.getLast? = some (Call.ListHostedZones input (Except.error e)))) ∧
    (∀ (σ : Type) (client : Client σ) (zoneID : String) (fuel : Nat) (w : World σ),
      ∃ new, (listResourceRecordSets client zoneID fuel w).2.calls = w.calls ++ new ∧
        (∀ i input page,
          new[i]? = some (Call.ListResourceRecordSets input (Except.ok page)) →
          page.IsTruncated = true → page.NextRecordName = none → i + 1 < fuel →
          ∃ result, new[i + 1]? = some (Call.ListResourceRecordSets
            { HostedZoneId := some zoneID, StartRecordName := none,
              StartRecordType := page.NextRecordType } result)) ∧
        (∀ records,
          (listResourceRecordSets client zoneID fuel w).1 = Outcome.returned (records, none) →
          records = (new.filterMap recordSetsPage).flatMap
            ListResourceRecordSetsOutput.ResourceRecordSets) ∧
        (∀ records e,
          (listResourceRecordSets client zoneID fuel w).1 =
            Outcome.returned (records, some e) →
          ∃ input, new.getLast? =
            some (Call.ListResourceRecordSets input (Except.error e)))) ∧
    (∀ (s : Script) (w : World Nat) (init : List ListHostedZonesOutput)
        (last : ListHostedZonesOutput) (fuel : Nat),
      (List.range' w.svc (init.length + 1)).map s.hostedZones =
        (init ++ [last]).map Except.ok →
      (∀ p ∈ init, p.IsTruncated = true) → last.IsTruncated = false →
      init.length < fuel →
      (listHostedZones (scripted s) fuel w).1 =
        Outcome.returned
          ((init ++ [last]).flatMap ListHostedZonesOutput.HostedZones, none) ∧
      (listHostedZones (scripted s) fuel w).2.calls.length =
        w.calls.length + (init.length + 1)) ∧
    (∀ (s : Script) (zoneID : String) (w : World Nat)
        (init : List ListResourceRecordSetsOutput) (last : ListResourceRecordSetsOutput)
        (fuel : Nat),
      (List.range' w.svc (init.length + 1)).map s.recordSets =
        (init ++ [last]).map Except.ok →
      (∀ p ∈ init, p.IsTruncated = true) → last.IsTruncated = false →
      init.length < fuel →
      (listResourceRecordSets (scripted s) zoneID fuel w).1 =
        Outcome.returned
          ((init ++ [last]).flatMap ListResourceRecordSetsOutput.ResourceRecordSets, none) ∧
      (listResourceRecordSets (scripted s) zoneID fuel w).2.calls.length =
        w.calls.length + (init.length + 1)) := by
  refine ⟨?_, ?_, ?_, ?_⟩
  · intro σ client fuel w
    obtain ⟨new, hnew, hthr⟩ := paginate_threaded
      (I := ListHostedZonesOutput.HostedZones)
      (T := ListHostedZonesOutput.IsTruncated)
      (N := ListHostedZonesOutput.NextMarker) (records_hostedZones client) fuel [] none w
    simp only [listHostedZones, listHostedZonesLoop_eq]
    refine ⟨new, hnew, ?_, ?_, ?_⟩
    · intro i input page hi ht hm hfuel
      obtain ⟨d, hd⟩ := hthr.next_exists hi hfuel (by
        intro k r hkr
        simp only [Call.ListHostedZones.injEq] at hkr
        exact ⟨page, hkr.2.symm, ht⟩)
      obtain ⟨k, p, hc, -, r, rfl⟩ := hthr.consecutive hi hd
      simp only [Call.ListHostedZones.injEq, Except.ok.injEq] at hc
      obtain ⟨-, rfl⟩ := hc
      exact ⟨r, by rw [hd, hm, hostedZonesRequest]⟩
    · intro zones hr
      have := paginate_items (records_hostedZones client) hostedZonesPage (fun _ _ => rfl)
        fuel [] none w zones new hr hnew
      simpa using this
    · intro zones e hr
      obtain ⟨k, hk⟩ := paginate_error_origin (records_hostedZones client) fuel [] none w
        zones e hr
      rw [hnew] at hk
      cases hne : new with
      | nil =>
        subst hne
        cases fuel with
        | zero => simp [paginate] at hr
        | succ n =>
          obtain ⟨r, rest, h0, -⟩ := hthr
          cases h0
      | cons c cs =>
        rw [hne, List.getLast?_append_of_ne_nil _ (by simp)] at hk
        exact ⟨_, hk⟩
  · intro σ client zoneID fuel w
    obtain ⟨new, hnew, hthr⟩ := paginate_threaded
      (I := ListResourceRecordSetsOutput.ResourceRecordSets)
      (T := ListResourceRecordSetsOutput.IsTruncated)
      (N := nextRecord) (records_recordSets client zoneID) fuel [] (none, "") w
    simp only [listResourceRecordSets, listResourceRecordSetsLoop_eq]
    refine ⟨new, hnew, ?_, ?_, ?_⟩
    · intro i input page hi ht hm hfuel
      obtain ⟨d, hd⟩ := hthr.next_exists hi hfuel (by
        intro k r hkr
        simp only [Call.ListResourceRecordSets.injEq] at hkr
        exact ⟨page, hkr.2.symm, ht⟩)
      obtain ⟨k, p, hc, -, r, rfl⟩ := hthr.consecutive hi hd
      simp only [Call.ListResourceRecordSets.injEq, Except.ok.injEq] at hc
      obtain ⟨-, rfl⟩ := hc
      exact ⟨r, by rw [hd, recordSetsRequest, nextRecord, hm]⟩
    · intro records hr
      have := paginate_items (records_recordSets client zoneID) recordSetsPage
        (fun _ _ => rfl) fuel [] (none, "") w records new hr hnew
      simpa using this
    · intro records e hr
      obtain ⟨k, hk⟩ := paginate_error_origin (records_recordSets client zoneID) fuel []
        (none, "") w records e hr
      rw [hnew] at hk
      cases hne : new with
      | nil =>
        subst hne
        cases fuel with
        | zero => simp [paginate] at hr
        | succ n =>
          obtain ⟨r, rest, h0, -⟩ := hthr
          cases h0
      | cons c cs =>
        rw [hne, List.getLast?_append_of_ne_nil _ (by simp)] at hk
        exact ⟨_, hk⟩
  · intro s w init last fuel hs ht hl hfuel
    rw [List.map_append, List.map_singleton] at hs
    obtain ⟨cs, hcs, hrun⟩ := listHostedZones_script_end s init (Except.ok last) fuel w hs ht
      (fun p hp => by cases hp; exact hl) hfuel
    have hlen := congrArg List.length hcs
    simp only [List.length_map, List.length_replicate] at hlen
    rw [hrun]
    simp [World.after, hlen, scriptResult]
  · intro s zoneID w init last fuel hs ht hl hfuel
    rw [List.map_append, List.map_singleton] at hs
    obtain ⟨cs, hcs, hrun⟩ := listResourceRecordSets_script_end s zoneID init (Except.ok last)
      fuel w hs ht (fun p hp => by cases hp; exact hl) hfuel
    have hlen := congrArg List.length hcs
    simp only [List.length_map, List.length_replicate] at hlen
    rw [hrun]
    simp [World.after, hlen, scriptResult]

/-- C6 as amended, at a service whose first page is truncated and carries no
cursor and whose second page is the last: both pages' items are returned, after
two calls. -/
theorem malformed_truncation_continues_witness :
    ((listHostedZones (scripted malformedOnce) 2 freshWorld).1 =
        Outcome.returned ([zoneA, zoneC], none) ∧
      (listHostedZones (scripted malformedOnce) 2 freshWorld).2.calls.length = 0 + 2) ∧
    ((listResourceRecordSets (scripted malformedOnce) "/hostedzone/ZA" 2 freshWorld).1 =
        Outcome.returned ([recordA, recordC], none) ∧
      (listResourceRecordSets (scripted malformedOnce) "/hostedzone/ZA" 2
        freshWorld).2.calls.length = 0 + 2) :=
  ⟨malformed_truncation_continues.2.2.1 malformedOnce freshWorld [zonePageNoMarker] zonePage2 2
      rfl (by simp [zonePageNoMarker]) rfl (by decide),
    malformed_truncation_continues.2.2.2 malformedOnce "/hostedzone/ZA" freshWorld
      [recordPageNoName] recordPage2 2 rfl (by simp [recordPageNoName]) rfl (by decide)⟩

/-! ## C4: under the cursor contract nothing is skipped or duplicated -/

section Paging

variable {π κ α : Type} {fetch : κ → World σ → Except Error π × World σ}
  {I : π → List α} {T : π → Bool} {N : π → κ}
  {position : κ → Option Nat} {all : List α} {size : Nat}

/-- From a cursor that stands for `pos`, a run with enough fuel adds the items
from `pos` on. -/
theorem paginate_pagesThrough (h : PagesThrough fetch I T N position all size)
    (hsize : 0 < size) (fuel : Nat) :
    ∀ (acc : List α) (k : κ) (w : World σ) (pos : Nat),
      position k = some pos → all.length - pos < fuel →
      (paginate fetch I T N fuel acc k w).1 =
        Outcome.returned (acc ++ all.drop pos, none) := by
  induction fuel with
  | zero =>
    intro acc k w pos _ hfuel
    omega
  | succ n ih =>
    intro acc k w pos hpos hfuel
    obtain ⟨page, w1, hf, hitems, htrunc, hnext⟩ := h k w pos hpos
    unfold paginate
    rw [hf]
    by_cases hmore : pos + size < all.length
    · have ht : T page = true := by simpa [hmore] using htrunc
      simp only [ht, Bool.not_true, Bool.false_eq_true, if_false]
      rw [ih _ _ _ (pos + size) (hnext hmore) (by omega), hitems, List.append_assoc]
      congr 3
      rw [← List.drop_drop, List.take_append_drop]
    · have ht : T page = false := by simpa [hmore] using htrunc
      simp only [ht, Bool.not_false, if_true]
      rw [hitems, List.take_of_length_le (by simp; omega)]

end Paging

theorem pagesThrough_zones (c : Catalog) (hmark : ∀ k, c.positionOf (c.markerOf k) = some k) :
    PagesThrough (fun m => callListHostedZones (catalogClient c) (hostedZonesRequest m))
      ListHostedZonesOutput.HostedZones ListHostedZonesOutput.IsTruncated
      ListHostedZonesOutput.NextMarker c.zonePosition c.zones c.pageSize := by
  intro m w pos hpos
  simp only [callListHostedZones, catalogClient, hostedZonesRequest, hpos]
  refine ⟨_, _, rfl, rfl, rfl, ?_⟩
  intro hmore
  simp [hmore, Catalog.zonePosition, hmark]

theorem pagesThrough_records (c : Catalog) (zoneID : String)
    (hrec : ∀ k, c.recordPositionOf (c.recordCursorOf k) = some k) :
    PagesThrough (fun k => callListResourceRecordSets (catalogClient c)
        (recordSetsRequest zoneID k))
      ListResourceRecordSetsOutput.ResourceRecordSets ListResourceRecordSetsOutput.IsTruncated
      nextRecord c.recordPosition (c.records zoneID) c.pageSize := by
  intro k w pos hpos
  simp only [callListResourceRecordSets, catalogClient, recordSetsRequest, hpos]
  refine ⟨_, _, rfl, rfl, rfl, ?_⟩
  intro hmore
  simp [hmore, Catalog.recordPosition, nextRecord, hrec]

theorem unary_length (k : Nat) : (unary k).length = k := by
  show (List.replicate k 'x').length = k
  simp

theorem smallCatalog_marker (k : Nat) :
    smallCatalog.positionOf (smallCatalog.markerOf k) = some k := by
  show some (unary k).length = some k
  rw [unary_length]

theorem smallCatalog_recordCursor (k : Nat) :
    smallCatalog.recordPositionOf (smallCatalog.recordCursorOf k) = some k := by
  show some (2 * (unary (k / 2)).length +
    if (if k % 2 = 0 then "A" else "AAAA" : String) = "A" then 0 else 1) = some k
  rw [unary_length]
  rcases Nat.mod_two_eq_zero_or_one k with h | h
  · simp only [h, if_true]
    congr 1
    omega
  · have hne : ("AAAA" : String) ≠ "A" := by decide
    simp only [h, if_neg hne, if_false, Nat.one_ne_zero]
    congr 1
    omega

/-- C4.  Against a catalog service with a positive page size whose cursors can
be read back, `listHostedZones` returns exactly the catalog's zones and
`listResourceRecordSets` exactly the zone's records, in the catalog's order and
with no error, as soon as the fuel exceeds the number of items. -/
theorem listing_returns_whole_catalog (c : Catalog) (hsize : 0 < c.pageSize)
    (hmark : ∀ k, c.positionOf (c.markerOf k) = some k)
    (hrec : ∀ k, c.recordPositionOf (c.recordCursorOf k) = some k) (w : World Unit)
    (fuel : Nat) :
    (c.zones.length < fuel →
      (listHostedZones (catalogClient c) fuel w).1 = Outcome.returned (c.zones, none)) ∧
    (∀ zoneID, (c.records zoneID).length < fuel →
      (listResourceRecordSets (catalogClient c) zoneID fuel w).1 =
        Outcome.returned (c.records zoneID, none)) := by
  constructor
  · intro hfuel
    rw [listHostedZones, listHostedZonesLoop_eq,
      paginate_pagesThrough (pagesThrough_zones c hmark) hsize fuel [] none w 0 rfl
        (by omega)]
    simp
  · intro zoneID hfuel
    rw [listResourceRecordSets, listResourceRecordSetsLoop_eq,
      paginate_pagesThrough (pagesThrough_records c zoneID hrec) hsize fuel [] (none, "") w 0
        rfl (by omega)]
    simp

/-- C4 at a catalog of three zones and three records served two a page. -/
theorem listing_returns_whole_catalog_witness :
    (listHostedZones (catalogClient smallCatalog) 4 emptyWorld).1 =
        Outcome.returned ([zoneA, zoneB, zoneC], none) ∧
      (listResourceRecordSets (catalogClient smallCatalog) "/hostedzone/ZA" 4 emptyWorld).1 =
        Outcome.returned ([recordA, recordB, recordC], none) :=
  ⟨(listing_returns_whole_catalog smallCatalog (by decide) smallCatalog_marker
      smallCatalog_recordCursor emptyWorld 4).1 (by decide),
    (listing_returns_whole_catalog smallCatalog (by decide) smallCatalog_marker
      smallCatalog_recordCursor emptyWorld 4).2 "/hostedzone/ZA" (by decide)⟩

/-! ## Printing: what the display functions write -/

theorem printf_eq_extend (text : String) (w : World σ) :
    printf text w = w.extend [] [text] [] := by
  simp [printf, World.extend]

theorem logPrintf_eq_extend (text : String) (w : World σ) :
    logPrintf text w = w.extend [] [] [text] := by
  simp [logPrintf, World.extend]

theorem extend_extend (w : World σ) (c1 c2 : List Call) (o1 o2 l1 l2 : List String) :
    (w.extend c1 o1 l1).extend c2 o2 l2 = w.extend (c1 ++ c2) (o1 ++ o2) (l1 ++ l2) := by
  simp [World.extend]

theorem extend_nil (w : World σ) : w.extend [] [] [] = w := by
  simp [World.extend]

theorem displayValues_complete (values : List ResourceRecord)
    (h : values.all (fun rr => rr.Value.isSome) = true) (w : World σ) :
    displayValues values w =
      (Outcome.returned (),
        w.extend [] (values.map fun rr => "    Value: " ++ rr.Value.getD "" ++ "\n") []) := by
  induction values generalizing w with
  | nil => simp [displayValues, extend_nil]
  | cons rr rest ih =>
    simp only [List.all_cons, Bool.and_eq_true] at h
    obtain ⟨v, hv⟩ := Option.isSome_iff_exists.1 h.1
    simp [displayValues, hv, ih h.2, printf_eq_extend, extend_extend]

theorem displayRecord_complete (record : ResourceRecordSet) (h : record.complete = true)
    (w : World σ) :
    displayRecord record w = (Outcome.returned (), w.extend [] (recordLines record) []) := by
  simp only [ResourceRecordSet.complete, Bool.and_eq_true] at h
  obtain ⟨⟨hname, hvalues⟩, halias⟩ := h
  obtain ⟨name, hn⟩ := Option.isSome_iff_exists.1 hname
  cases hrt : record.TTL <;> cases ha : record.AliasTarget with
  | none =>
    simp [displayRecord, hn, displayValues_complete _ hvalues, ha, printf_eq_extend,
      extend_extend, recordLines, getRecordTTL, hrt]
  | some target =>
    rw [ha] at halias
    obtain ⟨dns, hd⟩ := Option.isSome_iff_exists.1 halias
    simp [displayRecord, hn, displayValues_complete _ hvalues, ha, hd, printf_eq_extend,
      extend_extend, recordLines, getRecordTTL, hrt]

theorem displayRecords_complete (records : List ResourceRecordSet)
    (h : ∀ r ∈ records, r.complete = true) (w : World σ) :
    displayRecords records w =
      (Outcome.returned (), w.extend [] (records.flatMap recordLines) []) := by
  induction records generalizing w with
  | nil => simp [displayRecords, extend_nil]
  | cons r rest ih =>
    simp [displayRecords, displayRecord_complete r (h r (by simp)),
      ih (fun q hq => h q (by simp [hq])), extend_extend]

theorem printf_eq_after (text : String) (w : World Nat) :
    printf text w = w.after [] [text] [] := by
  simp [printf, World.after]

theorem logPrintf_eq_after (text : String) (w : World Nat) :
    logPrintf text w = w.after [] [] [text] := by
  simp [logPrintf, World.after]

theorem extend_eq_after (w : World Nat) (out log : List String) :
    w.extend [] out log = w.after [] out log := by
  simp [World.extend, World.after]

theorem after_after (w : World Nat) (c1 c2 : List Call) (o1 o2 l1 l2 : List String) :
    (w.after c1 o1 l1).after c2 o2 l2 = w.after (c1 ++ c2) (o1 ++ o2) (l1 ++ l2) := by
  simp [World.after, Nat.add_assoc]

/-- What `displayZoneRecords` does for a complete zone against a script that
answers with the listing `l`, whose records are complete. -/
theorem displayZoneRecords_listing (s : Script) (zone : HostedZone) (l : Listing)
    (fuel : Nat) (w : World Nat) (hzone : zone.complete = true) (hl : l.wellFormed)
    (hs : (List.range' w.svc (l.pages.length + 1)).map s.recordSets = l.responses)
    (hfuel : l.pages.length < fuel)
    (hrecords : ∀ rs, l.records = Except.ok rs → ∀ r ∈ rs, r.complete = true) :
    ∃ cs, cs.map callTarget = List.replicate (l.pages.length + 1) (Target.records zone.Id) ∧
      displayZoneRecords (scripted s) fuel zone w =
        (Outcome.returned (),
          w.after cs (zoneLines zone l.records) (zoneLogs zone l.records)) := by
  simp only [HostedZone.complete, Bool.and_eq_true] at hzone
  obtain ⟨name, hn⟩ := Option.isSome_iff_exists.1 hzone.1
  obtain ⟨id, hi⟩ := Option.isSome_iff_exists.1 hzone.2
  obtain ⟨cs, hcs, hrun⟩ := listResourceRecordSets_script_end s id l.pages l.last fuel
    (printf "----------------------------------------\n"
      (printf ("Hosted Zone: " ++ name ++ " (ID: " ++ id ++ ")\n") w))
    (by simpa [printf, Listing.responses] using hs) hl.1 hl.2 hfuel
  refine ⟨cs, by rw [hcs, hi], ?_⟩
  simp only [displayZoneRecords, hn, hi, hrun, zoneLines, zoneLogs, Option.getD_some]
  cases hlast : l.last with
  | error e =>
    simp [Listing.records, hlast, scriptResult, printf_eq_after, logPrintf_eq_after,
      after_after]
  | ok p =>
    have hrs : ∀ r ∈ l.pages.flatMap ListResourceRecordSetsOutput.ResourceRecordSets ++
        p.ResourceRecordSets, r.complete = true := by
      have := hrecords
        ((l.pages ++ [p]).flatMap ListResourceRecordSetsOutput.ResourceRecordSets)
        (by simp [Listing.records, hlast])
      simpa using this
    simp [Listing.records, hlast, scriptResult, displayRecords_complete _ hrs,
      printf_eq_after, extend_eq_after, after_after]

/-- What the loop over the zones does against a script that answers with the
listings of the zones, one after the other. -/
theorem displayZones_listings (s : Script) (fuel : Nat) (entries : List (HostedZone × Listing)) :
    ∀ (w : World Nat),
      servesListings s.recordSets w.svc (entries.map Prod.snd) →
      (∀ e ∈ entries, e.1.complete = true ∧ e.2.wellFormed ∧ e.2.pages.length < fuel ∧
        ∀ rs, e.2.records = Except.ok rs → ∀ r ∈ rs, r.complete = true) →
      ∃ cs, cs.map callTarget =
          entries.flatMap (fun e =>
            List.replicate (e.2.pages.length + 1) (Target.records e.1.Id)) ∧
        displayZones (scripted s) fuel (entries.map Prod.fst) w =
          (Outcome.returned (),
            w.after cs (entries.flatMap fun e => zoneLines e.1 e.2.records)
              (entries.flatMap fun e => zoneLogs e.1 e.2.records)) := by
  induction entries with
  | nil =>
    intro w _ _
    exact ⟨[], rfl, by simp [displayZones, World.after]⟩
  | cons e rest ih =>
    intro w hserves hall
    obtain ⟨hs, hrest⟩ := hserves
    obtain ⟨hzone, hl, hfuel, hrecords⟩ := hall e (by simp)
    obtain ⟨cs1, hcs1, hrun1⟩ := displayZoneRecords_listing s e.1 e.2 fuel w hzone hl hs hfuel
      hrecords
    have hlen : cs1.length = e.2.pages.length + 1 := by
      have := congrArg List.length hcs1
      simpa using this
    obtain ⟨cs2, hcs2, hrun2⟩ := ih
      (w.after cs1 (zoneLines e.1 e.2.records) (zoneLogs e.1 e.2.records))
      (by simpa [World.after, hlen] using hrest)
      (fun q hq => hall q (by simp [hq]))
    refine ⟨cs1 ++ cs2, by simp [hcs1, hcs2], ?_⟩
    simp only [List.map_cons, displayZones, hrun1, hrun2, after_after, List.flatMap_cons]

theorem displayValues_stdout (values : List ResourceRecord) (w : World σ) :
    ∃ rest, (displayValues values w).2.stdout = w.stdout ++ rest := by
  induction values generalizing w with
  | nil => exact ⟨[], by simp [displayValues]⟩
  | cons rr tail ih =>
    cases hv : rr.Value with
    | none => exact ⟨[], by simp [displayValues, hv]⟩
    | some v =>
      obtain ⟨rest, hrest⟩ := ih (printf ("    Value: " ++ v ++ "\n") w)
      refine ⟨("    Value: " ++ v ++ "\n") :: rest, ?_⟩
      simp only [displayValues, hv]
      rw [hrest]
      simp [printf]

/-! ## C7: a zone whose records cannot be listed does not stop the run -/

/-- C7 fails on a zone whose `Id` is nil: the dereference in `displayZoneRecords`
panics before the zone's header is written, and the zone after it is never
processed (no header, no listing call). -/
theorem nil_zone_id_counterexample :
    getAllZonesAndRecords
        (zoneClient { zones := Except.ok [zoneWithoutId, zoneB], records := fun _ => Except.ok [] })
        1 emptyWorld =
      (Outcome.panicked,
        { svc := ()
          calls :=
            [Call.ListHostedZones { Marker := none }
              (Except.ok
                { HostedZones := [zoneWithoutId, zoneB], IsTruncated := false,
                  NextMarker := none })]
          stdout := ["Found 2 hosted zones\n\n"]
          logged := [] }) :=
  rfl

/-- C7 as amended.  Take a service that answers the listing of the zones with
truncated pages and a last page, and then the listing of each zone's records,
zone after zone, with truncated pages followed by a last page or by an error.
When the zones have `Name` and `Id` set and the records listed have `Name`,
every `Value` and the alias `DNSName` set, `getAllZonesAndRecords` returns; its
calls are those of the zone listing and then, for each zone in listing order,
those of one listing of the zone's records; it writes the count, and for each
zone in listing order the header followed, when the listing succeeded, by the
zone's records and an empty line, and by nothing when it failed, on whatever
page; it logs one message for each zone whose listing failed.  When the listing
of the zones fails, on whatever page, it logs the error and exits with status 1,
having written nothing and called nothing but the zone listing. -/
theorem zone_failures_are_isolated (s : Script) (w : World Nat) (fuel : Nat) :
    (∀ (zinit : List ListHostedZonesOutput) (zlast : ListHostedZonesOutput)
        (entries : List (HostedZone × Listing)),
      (List.range' w.svc (zinit.length + 1)).map s.hostedZones =
        (zinit ++ [zlast]).map Except.ok →
      (∀ p ∈ zinit, p.IsTruncated = true) → zlast.IsTruncated = false →
      (zinit ++ [zlast]).flatMap ListHostedZonesOutput.HostedZones = entries.map Prod.fst →
      servesListings s.recordSets (w.svc + (zinit.length + 1)) (entries.map Prod.snd) →
      (∀ e ∈ entries, e.1.complete = true ∧ e.2.wellFormed ∧ e.2.pages.length < fuel ∧
        ∀ rs, e.2.records = Except.ok rs → ∀ r ∈ rs, r.complete = true) →
      zinit.length < fuel →
      ∃ calls,
        calls.map callTarget =
          List.replicate (zinit.length + 1) Target.zones ++
            entries.flatMap (fun e =>
              List.replicate (e.2.pages.length + 1) (Target.records e.1.Id)) ∧
        getAllZonesAndRecords (scripted s) fuel w =
          (Outcome.returned (),
            { svc := w.svc + calls.length
              calls := w.calls ++ calls
              stdout := w.stdout ++
                ("Found " ++ toString entries.length ++ " hosted zones\n\n") ::
                entries.flatMap (fun e => zoneLines e.1 e.2.records)
              logged := w.logged ++ entries.flatMap (fun e => zoneLogs e.1 e.2.records) })) ∧
    (∀ (zinit : List ListHostedZonesOutput) (e : Error),
      (List.range' w.svc (zinit.length + 1)).map s.hostedZones =
        zinit.map Except.ok ++ [Except.error e] →
      (∀ p ∈ zinit, p.IsTruncated = true) → zinit.length < fuel →
      ∃ calls,
        calls.map callTarget = List.replicate (zinit.length + 1) Target.zones ∧
        getAllZonesAndRecords (scripted s) fuel w =
          (Outcome.exited 1,
            { svc := w.svc + calls.length
              calls := w.calls ++ calls
              stdout := w.stdout
              logged := w.logged ++ ["failed to list hosted zones, " ++ e.msg] })) := by
  constructor
  · intro zinit zlast entries hs ht hl hzones hserves hall hfuel
    rw [List.map_append, List.map_singleton] at hs
    obtain ⟨cs1, hcs1, hrun1⟩ := listHostedZones_script_end s zinit (Except.ok zlast) fuel w hs
      ht (fun p hp => by cases hp; exact hl) hfuel
    have hlen : cs1.length = zinit.length + 1 := by
      have := congrArg List.length hcs1
      simpa using this
    obtain ⟨cs2, hcs2, hrun2⟩ := displayZones_listings s fuel entries
      (w.after cs1 ["Found " ++ toString entries.length ++ " hosted zones\n\n"] [])
      (by simpa [World.after, hlen] using hserves) hall
    refine ⟨cs1 ++ cs2, by simp [hcs1, hcs2], ?_⟩
    have hcount : ((zinit ++ [zlast]).flatMap ListHostedZonesOutput.HostedZones).length =
        entries.length := by
      rw [hzones, List.length_map]
    simp only [getAllZonesAndRecords, hrun1, scriptResult, printf_eq_after, after_after,
      hcount, List.nil_append]
    rw [hzones, List.append_nil, hrun2, after_after]
    simp [World.after]
  · intro zinit e hs ht hfuel
    obtain ⟨cs, hcs, hrun⟩ := listHostedZones_script_end s zinit (Except.error e) fuel w hs ht
      (fun p hp => by cases hp) hfuel
    refine ⟨cs, hcs, ?_⟩
    simp [getAllZonesAndRecords, hrun, scriptResult, logPrintf_eq_after, after_after,
      World.after]

/-- C7 as amended, at three zones listed in two pages: the records of the first
come in two pages, the listing of the second fails on its second page, and the
third is processed after it.  The header of the second zone is written, its
failure logged and none of its records written, not even the record of the
page received before the error. -/
theorem zone_failures_are_isolated_witness :
    ∃ calls,
      calls.map callTarget =
        [Target.zones, Target.zones,
          Target.records (some "/hostedzone/ZA"), Target.records (some "/hostedzone/ZA"),
          Target.records (some "/hostedzone/ZB"), Target.records (some "/hostedzone/ZB"),
          Target.records (some "/hostedzone/ZC")] ∧
      getAllZonesAndRecords (scripted mixedListings) 2 freshWorld =
        (Outcome.returned (),
          { svc := 0 + calls.length
            calls := [] ++ calls
            stdout := [] ++
              ["Found 3 hosted zones\n\n",
                "Hosted Zone: a.example.com. (ID: /hostedzone/ZA)\n",
                "----------------------------------------\n",
                "  Name: a.example.com.\n", "  Type: A\n", "  TTL: 300\n",
                "    Value: 192.0.2.1\n", "\n",
                "  Name: b.example.com.\n", "  Type: TXT\n", "  TTL: 0\n",
                "    Value: one\n", "    Value: two\n", "\n",
                "\n",
                "Hosted Zone: b.example.com. (ID: /hostedzone/ZB)\n",
                "----------------------------------------\n",
                "Hosted Zone: c.example.com. (ID: /hostedzone/ZC)\n",
                "----------------------------------------\n",
                "  Name: c.example.com.\n", "  Type: A\n", "  TTL: 0\n",
                "    Alias Target: lb.example.net.\n", "\n",
                "\n"]
            logged := [] ++
              ["failed to list records for zone /hostedzone/ZB: AccessDenied"] }) :=
  (zone_failures_are_isolated mixedListings freshWorld 2).1 [zonePage1] zonePage2 mixedEntries
    rfl (by simp [zonePage1]) rfl rfl ⟨rfl, rfl, rfl, trivial⟩
    (by
      intro e he
      simp only [mixedEntries, List.mem_cons, List.mem_singleton, List.not_mem_nil,
        or_false] at he
      rcases he with rfl | rfl | rfl
      · refine ⟨rfl, ⟨by simp [recordPageFirst], fun p hp => by cases hp; rfl⟩, by decide, ?_⟩
        intro rs hrs r hr
        cases hrs
        simp only [List.mem_cons, List.mem_singleton, List.not_mem_nil, or_false,
          List.flatMap_cons, List.flatMap_nil, List.append_nil, List.cons_append,
          List.nil_append, recordPageFirst, recordPageLast] at hr
        rcases hr with rfl | rfl <;> rfl
      · exact ⟨rfl, ⟨by simp [recordPageFirst], fun p hp => by cases hp⟩, by decide,
          fun rs hrs => by cases hrs⟩
      · refine ⟨rfl, ⟨by simp, fun p hp => by cases hp; rfl⟩, by decide, ?_⟩
        intro rs hrs r hr
        cases hrs
        simp only [List.mem_cons, List.mem_singleton, List.not_mem_nil, or_false,
          List.flatMap_cons, List.flatMap_nil, List.append_nil, List.cons_append,
          List.nil_append, recordPage2] at hr
        subst hr
        rfl)
    (by decide)

/-! ## C8: the TTL of a record -/

/-- C8 fails on a record whose `Name` is nil: its TTL is 300, but `displayRecord`
panics on the first dereference and writes no TTL line. -/
theorem record_without_name_counterexample :
    getRecordTTL recordWithoutName = 300 ∧
      displayRecord recordWithoutName emptyWorld = (Outcome.panicked, emptyWorld) :=
  ⟨rfl, rfl⟩

/-- C8 as amended.  `getRecordTTL` gives the TTL of the record when it is set,
unchanged, and 0 when it is not; and for a record whose `Name` is set the third
chunk `displayRecord` writes, after the name and the type, is the TTL line with
exactly this value.  On a record whose `Name` is nil `displayRecord` panics
and writes nothing. -/
theorem record_ttl_printed (σ : Type) (record : ResourceRecordSet) (w : World σ) :
    (∀ ttl, record.TTL = some ttl → getRecordTTL record = ttl) ∧
    (record.TTL = none → getRecordTTL record = 0) ∧
    (∀ name, record.Name = some name →
      ∃ rest, (displayRecord record w).2.stdout =
        w.stdout ++
          ["  Name: " ++ name ++ "\n", "  Type: " ++ record.Type_ ++ "\n",
            "  TTL: " ++ fmtInt (getRecordTTL record) ++ "\n"] ++ rest) ∧
    (record.Name = none → displayRecord record w = (Outcome.panicked, w)) := by
  refine ⟨?_, ?_, ?_, ?_⟩
  · intro ttl h
    simp [getRecordTTL, h]
  · intro h
    simp [getRecordTTL, h]
  · intro name hn
    obtain ⟨rest, hrest⟩ := displayValues_stdout record.ResourceRecords
      (printf ("  TTL: " ++ fmtInt (getRecordTTL record) ++ "\n")
        (printf ("  Type: " ++ record.Type_ ++ "\n") (printf ("  Name: " ++ name ++ "\n") w)))
    simp only [displayRecord, hn]
    rcases hd : displayValues record.ResourceRecords
      (printf ("  TTL: " ++ fmtInt (getRecordTTL record) ++ "\n")
        (printf ("  Type: " ++ record.Type_ ++ "\n") (printf ("  Name: " ++ name ++ "\n") w)))
      with ⟨o, w1⟩
    rw [hd] at hrest
    simp only [printf, List.append_assoc, List.singleton_append] at hrest
    cases o with
    | returned u =>
      cases ha : record.AliasTarget with
      | none => exact ⟨rest ++ ["\n"], by simp [printf, hrest]⟩
      | some target =>
        cases ht : target.DNSName with
        | none => exact ⟨rest, by simp [ht, hrest]⟩
        | some dns =>
          exact ⟨rest ++ ["    Alias Target: " ++ dns ++ "\n", "\n"],
            by simp [ht, printf, hrest]⟩
    | running => exact ⟨rest, by simp [hrest]⟩
    | panicked => exact ⟨rest, by simp [hrest]⟩
    | exited code => exact ⟨rest, by simp [hrest]⟩
  · intro h
    simp [displayRecord, h]

/-- C8 at a record with TTL 300, a record without TTL and a record with TTL -5:
the TTL lines read 300, 0 and -5. -/
theorem record_ttl_printed_witness :
    (getRecordTTL recordA = 300 ∧ getRecordTTL recordC = 0 ∧
      getRecordTTL recordNegativeTTL = -5) ∧
    (∃ rest, (displayRecord recordA emptyWorld).2.stdout =
      [] ++ ["  Name: a.example.com.\n", "  Type: A\n", "  TTL: 300\n"] ++ rest) ∧
    (∃ rest, (displayRecord recordC emptyWorld).2.stdout =
      [] ++ ["  Name: c.example.com.\n", "  Type: A\n", "  TTL: 0\n"] ++ rest) ∧
    (∃ rest, (displayRecord recordNegativeTTL emptyWorld).2.stdout =
      [] ++ ["  Name: n.example.com.\n", "  Type: A\n", "  TTL: -5\n"] ++ rest) :=
  ⟨⟨(record_ttl_printed Unit recordA emptyWorld).1 300 rfl,
      (record_ttl_printed Unit recordC emptyWorld).2.1 rfl,
      (record_ttl_printed Unit recordNegativeTTL emptyWorld).1 (-5) rfl⟩,
    (record_ttl_printed Unit recordA emptyWorld).2.2.1 "a.example.com." rfl,
    (record_ttl_printed Unit recordC emptyWorld).2.2.1 "c.example.com." rfl,
    (record_ttl_printed Unit recordNegativeTTL emptyWorld).2.2.1 "n.example.com." rfl⟩

/-! ## C9: the requests of `createSubdomain` and `deleteSubdomain` -/

/-- C9.  `createSubdomain` makes exactly one call, `ChangeResourceRecordSets`,
for the zone `hostedZoneID` with a batch of one change: the action Create on a
record set of type A with the name `subdomain`, the TTL `ttl` and the one
value `ipAddress`; `deleteSubdomain` makes the same call with the action Delete;
each returns what the service answered. -/
theorem subdomain_requests (σ : Type) (client : Client σ)
    (hostedZoneID subdomain ipAddress : String) (ttl : Int) (w : World σ) :
    ∃ request : ChangeAction → ChangeResourceRecordSetsInput,
      (∀ action, request action =
        { HostedZoneId := some hostedZoneID
          ChangeBatch := some
            { Changes :=
                [{ Action := action
                   ResourceRecordSet := some
                     { Name := some subdomain
                       Type_ := "A"
                       TTL := some ttl
                       ResourceRecords := [{ Value := some ipAddress }]
                       AliasTarget := none } }] } }) ∧
      createSubdomain client hostedZoneID subdomain ipAddress ttl w =
        ((client.ChangeResourceRecordSets w.svc (request ChangeAction.Create)).1,
          { w with
            svc := (client.ChangeResourceRecordSets w.svc (request ChangeAction.Create)).2
            calls := w.calls ++
              [Call.ChangeResourceRecordSets (request ChangeAction.Create)
                (client.ChangeResourceRecordSets w.svc (request ChangeAction.Create)).1] }) ∧
      deleteSubdomain client hostedZoneID subdomain ipAddress ttl w =
        ((client.ChangeResourceRecordSets w.svc (request ChangeAction.Delete)).1,
          { w with
            svc := (client.ChangeResourceRecordSets w.svc (request ChangeAction.Delete)).2
            calls := w.calls ++
              [Call.ChangeResourceRecordSets (request ChangeAction.Delete)
                (client.ChangeResourceRecordSets w.svc (request ChangeAction.Delete)).1] }) :=
  ⟨_, fun _ => rfl, rfl, rfl⟩

end Route53
